import Mathlib

/-!
# s3upload: the SQS consumer of S3 notifications

A shallow embedding of `s3upload/main.go`, and the properties of it.

* Go strings that are text (message bodies, receipt handles, bucket names,
  keys, error messages) are Lean strings.  The content of a downloaded object,
  and the first line taken from it, are lists of bytes.
* An `error` is its message (`err.Error()`), `nil` is `none`.
* The services the program calls (SQS, S3, the configuration loader, the file
  system) are operations on an abstract world state; everything the program
  does to the outside is recorded, in order, as a list of events.  A run that
  ends in `log.Fatalf` has no result.
* Formatting is kept symbolic: a log line is its format string and operands.
  The time stamp a logger puts before each line is not represented.
* `for { ... }` never ends: `pollLoop` runs a given number of its turns.
* `encoding/json` and `bufio.Scanner` belong to the Go standard library; they
  are modelled after their sources: `json.Unmarshal` into a nil
  `map[string]interface{}` (the text of a syntax error is a placeholder), and
  `Scanner.Scan` with its buffer, turn by turn.
-/

namespace S3Upload

/-! ## `encoding/json`: decoding into `interface{}` values -/

/-- A value produced by `json.Unmarshal` into an `interface{}`: `nil`, `bool`,
`float64` (kept as the number's literal), `string`, `[]interface{}` and
`map[string]interface{}` (the bindings in document order). -/
inductive JSON where
  | null
  | bool (b : Bool)
  | number (literal : String)
  | string (s : String)
  | array (elems : List JSON)
  | object (members : List (String × JSON))

/-- The bindings of a `map[string]interface{}`. -/
abbrev JMap := List (String × JSON)

/-- Reading `m[key]`: a later binding of a key replaces an earlier one, a
missing key reads as `nil`. -/
def mapIndex : JMap → String → Option JSON
  | [], _ => none
  | (k, v) :: rest, key =>
    match mapIndex rest key with
    | some w => some w
    | none => if k = key then some v else none

/-- Type assertion `v.([]interface{})`. -/
def asArray : Option JSON → Option (List JSON)
  | some (JSON.array xs) => some xs
  | _ => none

/-- Type assertion `v.(map[string]interface{})`. -/
def asObject : Option JSON → Option JMap
  | some (JSON.object m) => some m
  | _ => none

/-- Type assertion `v.(string)`. -/
def asString : Option JSON → Option String
  | some (JSON.string s) => some s
  | _ => none

/-- JSON insignificant whitespace: space, tab, line feed, carriage return. -/
def isSpace (c : Char) : Bool :=
  c = ' ' || c = '\t' || c = '\n' || c = '\r'

/-- Drop leading whitespace. -/
def skipSpace : List Char → List Char
  | [] => []
  | c :: cs => if isSpace c then skipSpace cs else c :: cs

/-- Value of a hexadecimal digit. -/
def hexVal (c : Char) : Option Nat :=
  if '0' ≤ c ∧ c ≤ '9' then some (c.toNat - '0'.toNat)
  else if 'a' ≤ c ∧ c ≤ 'f' then some (c.toNat - 'a'.toNat + 10)
  else if 'A' ≤ c ∧ c ≤ 'F' then some (c.toNat - 'A'.toNat + 10)
  else none

/-- The four hexadecimal digits after `\u`. -/
def getu4 : List Char → Option (Nat × List Char)
  | a :: b :: c :: d :: rest =>
    match hexVal a, hexVal b, hexVal c, hexVal d with
    | some x, some y, some z, some w => some (((x * 16 + y) * 16 + z) * 16 + w, rest)
    | _, _, _, _ => none
  | _ => none

/-- The Unicode replacement character. -/
def replacementChar : Char := Char.ofNat 0xFFFD

/-- The characters of a string literal after its opening quote, unescaped, and
the input after the closing quote.  A surrogate escape that is not the first
half of a valid pair decodes to U+FFFD. -/
def parseChars : Nat → List Char → List Char → Option (String × List Char)
  | 0, _, _ => none
  | _ + 1, [], _ => none
  | fuel + 1, c :: cs, acc =>
    if c = '"' then some (String.mk acc.reverse, cs)
    else if c = '\\' then
      match cs with
      | '"' :: r => parseChars fuel r ('"' :: acc)
      | '\\' :: r => parseChars fuel r ('\\' :: acc)
      | '/' :: r => parseChars fuel r ('/' :: acc)
      | 'b' :: r => parseChars fuel r (Char.ofNat 8 :: acc)
      | 'f' :: r => parseChars fuel r (Char.ofNat 12 :: acc)
      | 'n' :: r => parseChars fuel r ('\n' :: acc)
      | 'r' :: r => parseChars fuel r ('\r' :: acc)
      | 't' :: r => parseChars fuel r ('\t' :: acc)
      | 'u' :: r =>
        match getu4 r with
        | none => none
        | some (u, r1) =>
          if 0xD800 ≤ u ∧ u < 0xE000 then
            match r1 with
            | '\\' :: 'u' :: r2 =>
              match getu4 r2 with
              | some (v, r3) =>
                if u < 0xDC00 ∧ 0xDC00 ≤ v ∧ v < 0xE000 then
                  parseChars fuel r3
                    (Char.ofNat (0x10000 + (u - 0xD800) * 0x400 + (v - 0xDC00)) :: acc)
                else parseChars fuel r1 (replacementChar :: acc)
              | none => none
            | _ => parseChars fuel r1 (replacementChar :: acc)
          else parseChars fuel r1 (Char.ofNat u :: acc)
      | _ => none
    else if c.toNat < 0x20 then none
    else parseChars fuel cs (c :: acc)

/-- Split off a maximal run of decimal digits. -/
def spanDigits : List Char → List Char × List Char
  | [] => ([], [])
  | c :: cs =>
    if c.isDigit then ((spanDigits cs).1.cons c, (spanDigits cs).2) else ([], c :: cs)

/-- Decimal value of a run of digits. -/
def digitsVal (ds : List Char) : Nat :=
  ds.foldl (fun n c => n * 10 + (c.toNat - '0'.toNat)) 0

/-- The magnitudes from this one on do not round to a finite `float64`:
`2^1024 - 2^970`. -/
def float64Overflow : Nat := 2 ^ 1024 - 2 ^ 970

/-- Whether `mant * 10^(expPos - expNeg)` is too large for a `float64`
(`strconv.ParseFloat` then reports a range error). -/
def overflowsFloat64 (mant expPos expNeg : Nat) : Bool :=
  if mant = 0 then false
  else if expNeg ≤ expPos then
    -- a positive mantissa times 10^310 or more always overflows
    decide (310 ≤ expPos - expNeg) || decide (float64Overflow ≤ mant * 10 ^ (expPos - expNeg))
  else
    decide (float64Overflow * 10 ^ (expNeg - expPos) ≤ mant)

/-- A number literal, `-?(0|[1-9][0-9]*)(\.[0-9]+)?([eE][+-]?[0-9]+)?`; the
result records whether its value is out of the `float64` range. -/
def parseNumber (cs : List Char) : Option (String × Bool × List Char) :=
  let (sign, r0) := match cs with
    | '-' :: r => (['-'], r)
    | _ => ([], cs)
  let (intDigits, r1) := spanDigits r0
  if intDigits = [] ∨ (intDigits.head? = some '0' ∧ intDigits.length ≠ 1) then none
  else
    let frac : Option (List Char × List Char) := match r1 with
      | '.' :: r =>
        let (fd, r2) := spanDigits r
        if fd = [] then none else some (fd, r2)
      | _ => some ([], r1)
    match frac with
    | none => none
    | some (fracDigits, r2) =>
      let expo : Option (List Char × Bool × List Char × List Char) := match r2 with
        | e :: r =>
          if e = 'e' ∨ e = 'E' then
            let (esign, neg, r3) := match r with
              | '+' :: r3 => (['+'], false, r3)
              | '-' :: r3 => (['-'], true, r3)
              | _ => ([], false, r)
            let (ed, r4) := spanDigits r3
            if ed = [] then none else some (e :: esign ++ ed, neg, ed, r4)
          else some ([], false, [], r2)
        | [] => some ([], false, [], r2)
      match expo with
      | none => none
      | some (expText, neg, expDigits, r4) =>
        let fracText := if fracDigits = [] then [] else '.' :: fracDigits
        let mant := digitsVal (intDigits ++ fracDigits)
        let e := digitsVal expDigits
        let over :=
          if neg then overflowsFloat64 mant 0 (e + fracDigits.length)
          else overflowsFloat64 mant e fracDigits.length
        some (String.mk (sign ++ intDigits ++ fracText ++ expText), over, r4)

/-- The nesting depth beyond which `encoding/json` gives up. -/
def maxNestingDepth : Nat := 10000

/-- Result of parsing one value: the value, whether some number in it was out
of range, and the rest of the input. -/
abbrev Parsed (α : Type) := Option (α × Bool × List Char)

mutual
/-- Parse one JSON value (leading whitespace allowed) at nesting depth `depth`. -/
def parseValue : Nat → Nat → List Char → Parsed JSON
  | 0, _, _ => none
  | fuel + 1, depth, cs =>
    match skipSpace cs with
    | 'n' :: 'u' :: 'l' :: 'l' :: r => some (JSON.null, false, r)
    | 't' :: 'r' :: 'u' :: 'e' :: r => some (JSON.bool true, false, r)
    | 'f' :: 'a' :: 'l' :: 's' :: 'e' :: r => some (JSON.bool false, false, r)
    | '"' :: r =>
      match parseChars (r.length + 1) r [] with
      | some (s, r1) => some (JSON.string s, false, r1)
      | none => none
    | '[' :: r =>
      if maxNestingDepth ≤ depth then none
      else
        match skipSpace r with
        | ']' :: r1 => some (JSON.array [], false, r1)
        | _ =>
          match parseElems fuel (depth + 1) r [] with
          | some (xs, over, r1) => some (JSON.array xs, over, r1)
          | none => none
    | '{' :: r =>
      if maxNestingDepth ≤ depth then none
      else
        match skipSpace r with
        | '}' :: r1 => some (JSON.object [], false, r1)
        | _ =>
          match parseMembers fuel (depth + 1) r [] with
          | some (m, over, r1) => some (JSON.object m, over, r1)
          | none => none
    | c :: r =>
      if c = '-' ∨ c.isDigit then
        match parseNumber (c :: r) with
        | some (lit, over, r1) => some (JSON.number lit, over, r1)
        | none => none
      else none
    | [] => none
/-- Parse `value (, value)* ]`. -/
def parseElems : Nat → Nat → List Char → List JSON → Parsed (List JSON)
  | 0, _, _, _ => none
  | fuel + 1, depth, cs, acc =>
    match parseValue fuel depth cs with
    | none => none
    | some (v, over, r) =>
      match skipSpace r with
      | ',' :: r1 =>
        match parseElems fuel depth r1 (v :: acc) with
        | some (xs, over1, r2) => some (xs, over || over1, r2)
        | none => none
      | ']' :: r1 => some ((v :: acc).reverse, over, r1)
      | _ => none
/-- Parse `"key" : value (, "key" : value)* }`. -/
def parseMembers : Nat → Nat → List Char → JMap → Parsed JMap
  | 0, _, _, _ => none
  | fuel + 1, depth, cs, acc =>
    match skipSpace cs with
    | '"' :: r =>
      match parseChars (r.length + 1) r [] with
      | none => none
      | some (k, r1) =>
        match skipSpace r1 with
        | ':' :: r2 =>
          match parseValue fuel depth r2 with
          | none => none
          | some (v, over, r3) =>
            match skipSpace r3 with
            | ',' :: r4 =>
              match parseMembers fuel depth r4 ((k, v) :: acc) with
              | some (m, over1, r5) => some (m, over || over1, r5)
              | none => none
            | '}' :: r4 => some (((k, v) :: acc).reverse, over, r4)
            | _ => none
        | _ => none
    | _ => none
end

/-- The function `json.Unmarshal(data, &event)` for `event` a nil
`map[string]interface{}`: the map it leaves in `event`, or the error.  It is
an error when the document is not valid JSON or is nested deeper than
`maxNestingDepth`, when its value is neither an object nor `null`, and when a
number in it is out of the range of `float64`.  The document `null` leaves the
map nil, which reads like an empty map. -/
def jsonUnmarshal (data : String) : Except String JMap :=
  match parseValue (2 * data.length + 2) 0 data.data with
  | none => .error "invalid character or unexpected end of JSON input"
  | some (v, over, rest) =>
    if skipSpace rest ≠ [] then .error "invalid character after top-level value"
    else
      match v with
      | JSON.object m =>
        if over then .error "json: cannot unmarshal number into Go value of type float64"
        else .ok m
      | JSON.null => .ok []
      | _ => .error "json: cannot unmarshal into Go value of type map[string]interface \x7b\x7d"

/-! ## The notification decoder -/

/-- The function `extractS3Details`: bucket name, object key and error. -/
def extractS3Details (messageBody : String) : String × String × Option String :=
  match jsonUnmarshal messageBody with
  | .error err => ("", "", some ("failed to parse S3 event message: " ++ err))
  | .ok event =>
    match asArray (mapIndex event "Records") with
    | none => ("", "", some "no records found in S3 event")
    | some [] => ("", "", some "no records found in S3 event")
    | some (first :: _) =>
      match asObject (some first) with
      | none => ("", "", some "invalid record structure")
      | some record =>
        match asObject (mapIndex record "s3") with
        | none => ("", "", some "missing s3 information in record")
        | some s3Info =>
          match asObject (mapIndex s3Info "bucket") with
          | none => ("", "", some "missing bucket information in record")
          | some bucketInfo =>
            match asString (mapIndex bucketInfo "name") with
            | none => ("", "", some "invalid bucket name")
            | some bucketName =>
              match asObject (mapIndex s3Info "object") with
              | none => ("", "", some "missing object information in record")
              | some objectInfo =>
                match asString (mapIndex objectInfo "key") with
                | none => ("", "", some "invalid object key")
                | some objectKey => (bucketName, objectKey, none)

/-! ## `bufio.Scanner` over a `strings.Reader`, with the `ScanLines` splitter -/

/-- A byte of object content. -/
abbrev Byte := UInt8

/-- The UTF-8 bytes of a text. -/
def utf8 (s : String) : List Byte := s.data.flatMap String.utf8EncodeChar

/-- The line feed `'\n'`. -/
def LF : Byte := 10

/-- The carriage return `'\r'`. -/
def CR : Byte := 13

/-- The function `dropCR`: drop one terminal `\r`. -/
def dropCR (data : List Byte) : List Byte :=
  if data.getLast? = some CR then data.dropLast else data

/-- The split function `bufio.ScanLines`: how far to advance, and the token
(`none` is a nil token: more data is needed, or nothing is left). -/
def ScanLines (data : List Byte) (atEOF : Bool) : Nat × Option (List Byte) :=
  if atEOF ∧ data = [] then (0, none)
  else if data.indexOf LF < data.length then
    (data.indexOf LF + 1, some (dropCR (data.take (data.indexOf LF))))
  else if atEOF then (data.length, some (dropCR data))
  else (0, none)

/-- The errors a scanner can hold. -/
inductive ScanError where
  | EOF
  | ErrTooLong
  | ErrNoProgress
  deriving DecidableEq, Repr

/-- The constant `bufio.MaxScanTokenSize`. -/
def MaxScanTokenSize : Nat := 64 * 1024

/-- The constant `startBufSize`. -/
def startBufSize : Nat := 4096

/-- The largest `int`. -/
def maxInt : Nat := 2 ^ 63 - 1

/-- The state of a `bufio.Scanner` reading from a `strings.Reader`.  The
buffer is represented by its length and by the bytes it holds between `start`
and `end`; `end` is `start + pending.length`. -/
structure Scanner where
  /-- the part of the reader's string not yet read -/
  rest : List Byte
  maxTokenSize : Nat
  /-- the last token returned by the split function (`nil` reads as empty) -/
  tok : List Byte
  /-- `len(s.buf)` -/
  bufLen : Nat
  start : Nat
  /-- `s.buf[s.start:s.end]` -/
  pending : List Byte
  err : Option ScanError
  deriving DecidableEq, Repr

/-- The constructor `bufio.NewScanner(strings.NewReader(content))`. -/
def NewScanner (content : List Byte) : Scanner :=
  { rest := content, maxTokenSize := MaxScanTokenSize, tok := [], bufLen := 0, start := 0,
    pending := [], err := none }

/-- First part of a turn of the loop of `Scan`: when data is buffered or the
input has ended, offer the buffered data to the split function, advance and
record the token.  `ScanLines` never returns an error and never advances too
far, so those branches of `Scan` are left out. -/
def Scanner.trySplit (s : Scanner) : Option (List Byte) × Scanner :=
  if s.pending ≠ [] ∨ s.err ≠ none then
    (( ScanLines s.pending s.err.isSome).2,
      { s with start := s.start + (ScanLines s.pending s.err.isSome).1,
               pending := s.pending.drop (ScanLines s.pending s.err.isSome).1,
               tok := (ScanLines s.pending s.err.isSome).2.getD [] })
  else (none, s)

/-- Shift the data to the beginning of the buffer if there is much empty space
or space is needed. -/
def Scanner.shift (s : Scanner) : Scanner :=
  if 0 < s.start ∧ (s.start + s.pending.length = s.bufLen ∨ s.bufLen / 2 < s.start) then
    { s with start := 0 }
  else s

/-- Whether the buffer is full: `s.end == len(s.buf)`. -/
def Scanner.isFull (s : Scanner) : Bool :=
  s.start + s.pending.length = s.bufLen

/-- Resize a full buffer: twice its length, `startBufSize` for an empty one,
at most `maxTokenSize`. -/
def Scanner.grow (s : Scanner) : Scanner :=
  { s with
    bufLen := min (if s.bufLen * 2 = 0 then startBufSize else s.bufLen * 2) s.maxTokenSize,
    start := 0 }

/-- Read into the free end of the buffer.  A `strings.Reader` copies as much
as fits, and reports `io.EOF` once its string is used up; reads that yield
nothing end in `io.ErrNoProgress`. -/
def Scanner.read (s : Scanner) : Scanner :=
  if s.rest = [] then { s with err := some ScanError.EOF }
  else if s.bufLen - (s.start + s.pending.length) = 0 then
    { s with err := some ScanError.ErrNoProgress }
  else
    { s with pending := s.pending ++ s.rest.take (s.bufLen - (s.start + s.pending.length)),
             rest := s.rest.drop (s.bufLen - (s.start + s.pending.length)) }

/-- The loop of `Scanner.Scan`, one turn per unit of fuel. -/
def scanLoop : Nat → Scanner → Bool × Scanner
  | 0, s => (false, s)
  | fuel + 1, s =>
    -- See if we can get a token with what we already have.
    match s.trySplit with
    | (some _, s1) => (true, s1)
    | (none, s1) =>
      -- We cannot generate a token with what we are holding.
      if s1.err ≠ none then (false, { s1 with start := 0, pending := [] })
      else if s1.shift.isFull then
        -- The buffer is full: resize, unless it has reached its limit.
        if s1.shift.maxTokenSize ≤ s1.shift.bufLen ∨ maxInt / 2 < s1.shift.bufLen then
          (false, { s1.shift with err := some ScanError.ErrTooLong })
        else scanLoop fuel s1.shift.grow.read
      else scanLoop fuel s1.shift.read

/-- The method `Scanner.Scan`: every turn of its loop that does not return
reads at least one byte or records the end of the input. -/
def Scanner.Scan (s : Scanner) : Bool × Scanner :=
  scanLoop (s.rest.length + 2) s

/-- The method `Scanner.Text`. -/
def Scanner.Text (s : Scanner) : List Byte := s.tok

/-- The method `Scanner.Err`: the first error that is not `io.EOF`. -/
def Scanner.Err (s : Scanner) : Option ScanError :=
  if s.err = some ScanError.EOF then none else s.err

/-! ## The outside world and the trace of effects -/

/-- A message of a queue (`types.Message`): its fields are string pointers. -/
structure Message where
  Body : Option String
  MessageId : Option String
  ReceiptHandle : Option String
  deriving DecidableEq, Repr

/-- The parameters of a receive call (`sqs.ReceiveMessageInput`). -/
structure ReceiveMessageInput where
  QueueUrl : String
  MaxNumberOfMessages : Nat
  WaitTimeSeconds : Nat
  VisibilityTimeout : Nat
  deriving DecidableEq, Repr

/-- The parameters of a delete call (`sqs.DeleteMessageInput`). -/
structure DeleteMessageInput where
  QueueUrl : String
  ReceiptHandle : Option String
  deriving DecidableEq, Repr

/-- The helper `aws.ToString`: the string pointed to, or the empty string. -/
def ToString (p : Option String) : String := p.getD ""

/-- The two loggers of `main`: `logger` writes to the file `s3_events.log`,
`consoleLogger` to the standard output. -/
inductive Sink where
  | file
  | console
  deriving DecidableEq, Repr

/-- An operand of a format string. -/
inductive Arg where
  | text (s : String)
  | bytes (b : List Byte)
  deriving DecidableEq, Repr

/-- A formatted text, kept symbolic: the format string and its operands. -/
structure Formatted where
  format : String
  args : List Arg
  deriving DecidableEq, Repr

/-- The function `fmt.Sprintf`. -/
def Sprintf (format : String) (args : List Arg) : Formatted := ⟨format, args⟩

/-- What the program does to the outside, in the order it does it.  A logger
prefixes each line with the time of the call, which is not represented. -/
inductive Event where
  | LoadDefaultConfig (region : String)
  | OpenFile (name : String)
  | Stdout (line : String)
  | ReceiveMessage (input : ReceiveMessageInput)
  | DeleteMessage (input : DeleteMessageInput)
  | Download (bucket key : String)
  | Sleep (nanoseconds : Nat)
  | Printf (sink : Sink) (line : Formatted)
  | Println (sink : Sink) (line : Formatted)
  | Fatalf (line : Formatted)
  deriving DecidableEq, Repr

/-- The services the program calls, as operations on a world state `W`; each
returns its answer and the next state. -/
structure Env (W : Type) where
  LoadDefaultConfig : W → String → Option String × W
  OpenFile : W → String → Option String × W
  ReceiveMessage : W → ReceiveMessageInput → Except String (List Message) × W
  DeleteMessage : W → DeleteMessageInput → Option String × W
  Download : W → String → String → Except String (List Byte) × W

/-- The outcome of running a piece of the program: the events it produced, the
world it left, and its result; `none` when the process exited
(`log.Fatalf`). -/
structure Run (W α : Type) where
  trace : List Event
  world : W
  result : Option α
  deriving Repr

/-- The duration `time.Second`, in nanoseconds. -/
def Second : Nat := 1000000000

/-- The queue of `main`. -/
def queueURL : String := "https://sqs.us-east-1.amazonaws.com/897729111371/okharch-bucket-events"

/-- The receive parameters of `main`. -/
def receiveInput : ReceiveMessageInput :=
  { QueueUrl := queueURL, MaxNumberOfMessages := 10, WaitTimeSeconds := 20,
    VisibilityTimeout := 30 }

/-! ## `fetchAndCheckFile`, `processS3Event` and `main` -/

/-- The part of `fetchAndCheckFile` after the download: scan for the first
line of `content`. -/
def checkContent (content : List Byte) : Bool × List Byte :=
  let scanner := NewScanner content
  let scanned := scanner.Scan
  let firstLine := if scanned.1 then scanned.2.Text else []
  match scanned.2.Err with
  | some _ => (false, [])
  | none => (true, firstLine)

/-- The function `fetchAndCheckFile`: `isTextual`, `firstLine` and the error. -/
def fetchAndCheckFile {W : Type} (env : Env W) (w : W) (bucket key : String) :
    Run W (Bool × List Byte × Option String) :=
  match env.LoadDefaultConfig w "us-east-1" with
  | (some err, w1) =>
    { trace := [Event.LoadDefaultConfig "us-east-1",
                Event.Fatalf (Sprintf "Failed to load configuration: %v" [Arg.text err])],
      world := w1, result := none }
  | (none, w1) =>
    match env.Download w1 bucket key with
    | (.error err, w2) =>
      { trace := [Event.LoadDefaultConfig "us-east-1", Event.Download bucket key],
        world := w2,
        result := some (false, [], some ("failed to download S3 object: " ++ err)) }
    | (.ok content, w2) =>
      { trace := [Event.LoadDefaultConfig "us-east-1", Event.Download bucket key],
        world := w2,
        result := some ((checkContent content).1, (checkContent content).2, none) }

/-- A call `logger.Printf(...)` followed by the same call on `consoleLogger`. -/
def printfBoth (format : String) (args : List Arg) : List Event :=
  [Event.Printf Sink.file (Sprintf format args), Event.Printf Sink.console (Sprintf format args)]

/-- A call `logger.Println(...)` followed by the same call on `consoleLogger`. -/
def printlnBoth (line : Formatted) : List Event :=
  [Event.Println Sink.file line, Event.Println Sink.console line]

/-- The function `processS3Event`; its result is the error it returns. -/
def processS3Event {W : Type} (env : Env W) (w : W) (messageBody : String) :
    Run W (Option String) :=
  match extractS3Details messageBody with
  | (_, _, some err) =>
    { trace := printfBoth "Failed to extract S3 details: %v" [Arg.text err],
      world := w, result := some (some err) }
  | (bucket, key, none) =>
    let fetched := fetchAndCheckFile env w bucket key
    match fetched.result with
    | none => { trace := fetched.trace, world := fetched.world, result := none }
    | some (_, _, some err) =>
      { trace := fetched.trace ++ printfBoth "Failed to process file: %v" [Arg.text err],
        world := fetched.world, result := some (some err) }
    | some (isTextual, firstLine, none) =>
      if isTextual then
        { trace := fetched.trace ++
            printfBoth "First line of textual file: %s" [Arg.bytes firstLine],
          world := fetched.world, result := some none }
      else
        { trace := fetched.trace ++
            printfBoth "Non-textual file or file skipped: %s/%s" [Arg.text bucket, Arg.text key],
          world := fetched.world, result := some none }

/-- The lines 67 to 70 of `main`: log the error of the processing, if any. -/
def errorLog (err : Option String) : List Event :=
  match err with
  | some e => printfBoth "Error processing message: %v" [Arg.text e]
  | none => []

/-- The lines 79 to 86 of `main`: log the outcome of the delete call. -/
def deleteLog (message : Message) (err : Option String) : List Event :=
  match err with
  | some e => printfBoth "Failed to delete message: %v" [Arg.text e]
  | none => printlnBoth (Sprintf "Message deleted: %s" [Arg.text (ToString message.MessageId)])

/-- The body of the loop over `output.Messages` in `main`, for one message. -/
def handleMessage {W : Type} (env : Env W) (w : W) (message : Message) : Run W Unit :=
  let logMessage := Sprintf "Received message: %s" [Arg.text (ToString message.Body)]
  let processed := processS3Event env w (ToString message.Body)
  match processed.result with
  | none => { trace := processed.trace, world := processed.world, result := none }
  | some err =>
    let deleteInput : DeleteMessageInput :=
      { QueueUrl := queueURL, ReceiptHandle := message.ReceiptHandle }
    let deleted := env.DeleteMessage processed.world deleteInput
    { trace := processed.trace ++ errorLog err ++ printlnBoth logMessage ++
        [Event.DeleteMessage deleteInput] ++ deleteLog message deleted.1,
      world := deleted.2, result := some () }

/-- The loop `for _, message := range output.Messages` of `main`. -/
def handleMessages {W : Type} (env : Env W) : W → List Message → Run W Unit
  | w, [] => { trace := [], world := w, result := some () }
  | w, message :: rest =>
    let first := handleMessage env w message
    match first.result with
    | none => first
    | some _ =>
      let others := handleMessages env first.world rest
      { trace := first.trace ++ others.trace, world := others.world, result := others.result }

/-- One turn of the endless loop of `main`. -/
def pollOnce {W : Type} (env : Env W) (w : W) : Run W Unit :=
  match env.ReceiveMessage w receiveInput with
  | (.error err, w1) =>
    { trace := [Event.ReceiveMessage receiveInput] ++
        printfBoth "Failed to receive messages: %v" [Arg.text err] ++ [Event.Sleep (5 * Second)],
      world := w1, result := some () }
  | (.ok messages, w1) =>
    let handled := handleMessages env w1 messages
    { trace := Event.ReceiveMessage receiveInput :: handled.trace,
      world := handled.world, result := handled.result }

/-- The first `turns` turns of the endless loop `for { ... }` of `main`. -/
def pollLoop {W : Type} (env : Env W) : Nat → W → Run W Unit
  | 0, w => { trace := [], world := w, result := some () }
  | turns + 1, w =>
    let first := pollOnce env w
    match first.result with
    | none => first
    | some _ =>
      let others := pollLoop env turns first.world
      { trace := first.trace ++ others.trace, world := others.world, result := others.result }

/-- The function `main`, run for `turns` turns of its loop. -/
def main {W : Type} (env : Env W) (turns : Nat) (w : W) : Run W Unit :=
  match env.LoadDefaultConfig w "us-east-1" with
  | (some err, w1) =>
    { trace := [Event.LoadDefaultConfig "us-east-1",
                Event.Fatalf (Sprintf "Failed to load AWS config: %v" [Arg.text err])],
      world := w1, result := none }
  | (none, w1) =>
    match env.OpenFile w1 "s3_events.log" with
    | (some err, w2) =>
      { trace := [Event.LoadDefaultConfig "us-east-1", Event.OpenFile "s3_events.log",
                  Event.Fatalf (Sprintf "Failed to open log file: %v" [Arg.text err])],
        world := w2, result := none }
    | (none, w2) =>
      let looped := pollLoop env turns w2
      { trace := [Event.LoadDefaultConfig "us-east-1", Event.OpenFile "s3_events.log",
                  Event.Stdout "Listening for messages from SQS queue..."] ++ looped.trace,
        world := looped.world, result := looped.result }

/-! ## Notions used to state the properties -/

/-- In the words of the specification, the shape of a decoded payload from
which a notification can be read: its
`Records` is a non-empty array whose first element is an object with an object
`s3`, which has an object `bucket` with a string `name` and an object `object`
with a string `key`. -/
def HasNotification (event : JMap) (bucketName objectKey : String) : Prop :=
  ∃ (record : JMap) (others : List JSON) (s3Info bucketInfo objectInfo : JMap),
    mapIndex event "Records" = some (JSON.array (JSON.object record :: others)) ∧
    mapIndex record "s3" = some (JSON.object s3Info) ∧
    mapIndex s3Info "bucket" = some (JSON.object bucketInfo) ∧
    mapIndex bucketInfo "name" = some (JSON.string bucketName) ∧
    mapIndex s3Info "object" = some (JSON.object objectInfo) ∧
    mapIndex objectInfo "key" = some (JSON.string objectKey)

/-- The payload of the decode scenario,
`{"Records":[{"s3":{"bucket":{"name":"b1"},"object":{"key":"k1"}}}]}`. -/
def scenarioPayload : String :=
  "\x7b\"Records\":[\x7b\"s3\":\x7b\"bucket\":\x7b\"name\":\"b1\"\x7d,\"object\":\x7b\"key\":\"k1\"\x7d\x7d\x7d]\x7d"

/-- The payload `{"Records":[]}`. -/
def emptyRecordsPayload : String := "\x7b\"Records\":[]\x7d"

/-- The payload `{}`. -/
def emptyObjectPayload : String := "\x7b\x7d"

/-- A payload with two records: the first names `b1` and `k1`, the second `b2`
and `k2`. -/
def twoRecordPayload : String :=
  "\x7b\"Records\":[\x7b\"s3\":\x7b\"bucket\":\x7b\"name\":\"b1\"\x7d,\"object\":\x7b\"key\":\"k1\"\x7d\x7d\x7d," ++
  "\x7b\"s3\":\x7b\"bucket\":\x7b\"name\":\"b2\"\x7d,\"object\":\x7b\"key\":\"k2\"\x7d\x7d\x7d]\x7d"

/-- A notification whose bucket name and object key are empty,
`{"Records":[{"s3":{"bucket":{"name":""},"object":{"key":""}}}]}`. -/
def emptyNamesPayload : String :=
  "\x7b\"Records\":[\x7b\"s3\":\x7b\"bucket\":\x7b\"name\":\"\"\x7d,\"object\":\x7b\"key\":\"\"\x7d\x7d\x7d]\x7d"

/-- The input a scanner has not yet handed out: what it buffers and what the
reader still holds. -/
def Scanner.unread (s : Scanner) : List Byte := s.pending ++ s.rest

/-- A scanner between two calls of `Scan`, before the end of the input. -/
structure Scanner.Ready (s : Scanner) : Prop where
  noErr : s.err = none
  fits : s.start + s.pending.length ≤ s.bufLen
  bounded : s.bufLen ≤ s.maxTokenSize
  pos : 0 < s.maxTokenSize
  small : s.maxTokenSize ≤ maxInt / 2

/-- What one call of `Scan` makes of the unread input. -/
inductive ScanOutcome where
  | token (tok remaining : List Byte)
  | tooLong
  | finished

/-- The outcome of `Scan` on unread input `c` with token limit `M`: the line
up to the first newline when that newline is among the first `M` bytes; a
token too long when there are `M` bytes or more; else what is left is the last
line, if anything is left. -/
def scanSpec (M : Nat) (c : List Byte) : ScanOutcome :=
  if c.indexOf LF < c.length ∧ c.indexOf LF < M then
    ScanOutcome.token (dropCR (c.take (c.indexOf LF))) (c.drop (c.indexOf LF + 1))
  else if M ≤ c.length then ScanOutcome.tooLong
  else if c = [] then ScanOutcome.finished
  else ScanOutcome.token (dropCR c) []

/-- A scanner between two calls of `Scan`: ready, or at the end of its input
with nothing buffered. -/
def Scanner.Settled (s : Scanner) : Prop :=
  s.Ready ∨ (s.err = some ScanError.EOF ∧ s.pending = [] ∧ s.rest = [] ∧ 0 < s.maxTokenSize)

/-- The result `r` of a call of `Scan` is the outcome `o`. -/
def Realises (M : Nat) (r : Bool × Scanner) : ScanOutcome → Prop
  | ScanOutcome.token tok remaining =>
    r.1 = true ∧ r.2.tok = tok ∧ r.2.unread = remaining ∧ r.2.Settled ∧
      r.2.maxTokenSize = M ∧ r.2.Err = none
  | ScanOutcome.tooLong => r.1 = false ∧ r.2.err = some ScanError.ErrTooLong
  | ScanOutcome.finished => r.1 = false ∧ r.2.err = some ScanError.EOF

/-- The bytes before the first newline of the content; all of it when it has
no newline. -/
def beforeNewline (content : List Byte) : List Byte :=
  content.takeWhile (fun b => b ≠ LF)

/-- The loop `for scanner.Scan() { }` followed by `scanner.Err()`, with at
most `n` calls of `Scan` that return a token. -/
def scanAll : Nat → Scanner → Option ScanError
  | 0, s => s.Err
  | n + 1, s => if s.Scan.1 then scanAll n s.Scan.2 else s.Scan.2.Err

/-- The error with which scanning the content line by line ends, `none` when
it ends without a scanner error.  Every token uses up a byte at least, so
there are no more tokens than bytes. -/
def linesErr (content : List Byte) : Option ScanError :=
  scanAll (content.length + 1) (NewScanner content)

/-- The text before the first occurrence of one of the `terminators`; the whole
text when none occurs. -/
def textBefore (terminators : List (List Byte)) : List Byte → List Byte
  | [] => []
  | b :: rest =>
    if terminators.any (fun t => t.isPrefixOf (b :: rest)) then []
    else b :: textBefore terminators rest

/-- Some line of the content is too long for a scanner whose tokens hold at
most `M` bytes: the first `M` bytes of the line exist and hold no line feed. -/
inductive LongLine (M : Nat) : List Byte → Prop where
  | here (c : List Byte) (hlen : M ≤ c.length) (hmem : LF ∉ c.take M) : LongLine M c
  | later (c : List Byte) (hlt : c.indexOf LF < c.length) (hM : c.indexOf LF < M)
      (h : LongLine M (c.drop (c.indexOf LF + 1))) : LongLine M c

/-- A content whose first line is short and whose second line is longer than
a scanner token may be. -/
def lateLongLine : List Byte := utf8 "a\n" ++ List.replicate 100000 120

/-- A content of one line of `MaxScanTokenSize` bytes. -/
def longLine : List Byte := List.replicate MaxScanTokenSize 120

/-- A notification of an object that the store of the examples does not hold,
`{"Records":[{"s3":{"bucket":{"name":"b1"},"object":{"key":"missing"}}}]}`. -/
def missingObjectPayload : String :=
  "\x7b\"Records\":[\x7b\"s3\":\x7b\"bucket\":\x7b\"name\":\"b1\"\x7d,\"object\":\x7b\"key\":\"missing\"\x7d\x7d\x7d]\x7d"

/-- A message that is processed without error. -/
def goodMessage : Message :=
  { Body := some scenarioPayload, MessageId := some "id-1", ReceiptHandle := some "handle-1" }

/-- A message whose body has no records: decoding fails. -/
def undecodableMessage : Message :=
  { Body := some emptyRecordsPayload, MessageId := some "id-2", ReceiptHandle := some "handle-2" }

/-- A message whose object cannot be downloaded. -/
def unfetchableMessage : Message :=
  { Body := some missingObjectPayload, MessageId := some "id-3",
    ReceiptHandle := some "handle-3" }

/-- A batch with one message of each kind. -/
def demoBatch : List Message := [goodMessage, undecodableMessage, unfetchableMessage]

/-- An object store and a queue for the examples.  The state counts the calls
made. -/
def demoEnv : Env Nat where
  LoadDefaultConfig := fun w _ => (none, w + 1)
  OpenFile := fun w _ => (none, w + 1)
  ReceiveMessage := fun w _ =>
    if w = 0 then (.error "timeout", w + 1)
    else if w = 1 then (.ok demoBatch, w + 1)
    else (.ok [], w + 1)
  DeleteMessage := fun w input =>
    if input.ReceiptHandle = some "handle-2" then (some "access denied", w + 1)
    else (none, w + 1)
  Download := fun w bucket key =>
    if bucket = "b1" then
      if key = "k1" then (.ok (utf8 "hello\nworld"), w + 1)
      else if key = "crlf" then (.ok (utf8 "hello\r\nworld"), w + 1)
      else if key = "cr" then (.ok (utf8 "hello\r"), w + 1)
      else if key = "mixed" then (.ok (utf8 "a\rb\nc"), w + 1)
      else if key = "empty" then (.ok [], w + 1)
      else if key = "late" then (.ok lateLongLine, w + 1)
      else if key = "long" then (.ok longLine, w + 1)
      else (.error "NoSuchKey", w + 1)
    else (.error "NoSuchBucket", w + 1)

/-- The delete calls of a trace, in order. -/
def deleteCalls (trace : List Event) : List DeleteMessageInput :=
  trace.filterMap fun e =>
    match e with
    | Event.DeleteMessage input => some input
    | _ => none

/-- The receive calls of a trace, in order. -/
def receiveCalls (trace : List Event) : List ReceiveMessageInput :=
  trace.filterMap fun e =>
    match e with
    | Event.ReceiveMessage input => some input
    | _ => none

/-- The lines written to a sink, in order. -/
def linesOf (sink : Sink) (trace : List Event) : List Formatted :=
  trace.filterMap fun e =>
    match e with
    | Event.Printf s line => if s = sink then some line else none
    | Event.Println s line => if s = sink then some line else none
    | _ => none

/-- The delete call `main` makes for a message. -/
def deleteInputOf (message : Message) : DeleteMessageInput :=
  { QueueUrl := queueURL, ReceiptHandle := message.ReceiptHandle }

/-- The line `Received message: <body>` of a message. -/
def receivedLine (message : Message) : Formatted :=
  Sprintf "Received message: %s" [Arg.text (ToString message.Body)]

/-- A classification or skip line. -/
def isClassification (line : Formatted) : Bool :=
  line.format = "First line of textual file: %s" ||
  line.format = "Non-textual file or file skipped: %s/%s"

/-- A diagnostic line of `processS3Event`. -/
def isDiagnostic (line : Formatted) : Bool :=
  line.format = "Failed to extract S3 details: %v" ||
  line.format = "Failed to process file: %v"

/-- The events of a turn of the loop of `main` whose receive call fails with
`err`. -/
def failedTurn (err : String) : List Event :=
  [Event.ReceiveMessage receiveInput,
   Event.Printf Sink.file (Sprintf "Failed to receive messages: %v" [Arg.text err]),
   Event.Printf Sink.console (Sprintf "Failed to receive messages: %v" [Arg.text err]),
   Event.Sleep 5000000000]

/-- The classification or skip line for an inspected object. -/
def classificationLine (bucket key : String) (inspected : Bool × List Byte) : Formatted :=
  if inspected.1 then Sprintf "First line of textual file: %s" [Arg.bytes inspected.2]
  else Sprintf "Non-textual file or file skipped: %s/%s" [Arg.text bucket, Arg.text key]

/-- The four ways a run of `processS3Event` can go. -/
inductive ProcessCase {W : Type} (env : Env W) (w : W) (messageBody : String) :
    Run W (Option String) → Prop where
  | decodeError (bucket key err : String)
      (hdecode : extractS3Details messageBody = (bucket, key, some err)) :
      ProcessCase env w messageBody
        { trace := printfBoth "Failed to extract S3 details: %v" [Arg.text err],
          world := w, result := some (some err) }
  | configFatal (bucket key err : String) (w1 : W)
      (hdecode : extractS3Details messageBody = (bucket, key, none))
      (hcfg : env.LoadDefaultConfig w "us-east-1" = (some err, w1)) :
      ProcessCase env w messageBody
        { trace := [Event.LoadDefaultConfig "us-east-1",
                    Event.Fatalf (Sprintf "Failed to load configuration: %v" [Arg.text err])],
          world := w1, result := none }
  | fetchError (bucket key err : String) (w1 w2 : W)
      (hdecode : extractS3Details messageBody = (bucket, key, none))
      (hcfg : env.LoadDefaultConfig w "us-east-1" = (none, w1))
      (hdl : env.Download w1 bucket key = (.error err, w2)) :
      ProcessCase env w messageBody
        { trace := [Event.LoadDefaultConfig "us-east-1", Event.Download bucket key] ++
            printfBoth "Failed to process file: %v"
              [Arg.text ("failed to download S3 object: " ++ err)],
          world := w2, result := some (some ("failed to download S3 object: " ++ err)) }
  | classified (bucket key : String) (content : List Byte) (w1 w2 : W)
      (hdecode : extractS3Details messageBody = (bucket, key, none))
      (hcfg : env.LoadDefaultConfig w "us-east-1" = (none, w1))
      (hdl : env.Download w1 bucket key = (.ok content, w2)) :
      ProcessCase env w messageBody
        { trace := [Event.LoadDefaultConfig "us-east-1", Event.Download bucket key] ++
            [Event.Printf Sink.file (classificationLine bucket key (checkContent content)),
             Event.Printf Sink.console (classificationLine bucket key (checkContent content))],
          world := w2, result := some none }

/-! ## Properties of the notification decoder -/

lemma asArray_eq_some {v : Option JSON} {xs : List JSON} (h : asArray v = some xs) :
    v = some (JSON.array xs) := by
  unfold asArray at h
  split at h
  · simp_all
  · simp at h

lemma asObject_eq_some {v : Option JSON} {m : JMap} (h : asObject v = some m) :
    v = some (JSON.object m) := by
  unfold asObject at h
  split at h
  · simp_all
  · simp at h

lemma asString_eq_some {v : Option JSON} {s : String} (h : asString v = some s) :
    v = some (JSON.string s) := by
  unfold asString at h
  split at h
  · simp_all
  · simp at h

/-- A payload of the right shape decodes to the strings at the first record's
path. -/
lemma extract_of_shape {messageBody : String} {event : JMap} {bucketName objectKey : String}
    (hparse : jsonUnmarshal messageBody = .ok event)
    (hshape : HasNotification event bucketName objectKey) :
    extractS3Details messageBody = (bucketName, objectKey, none) := by
  obtain ⟨record, others, s3Info, bucketInfo, objectInfo, h1, h2, h3, h4, h5, h6⟩ := hshape
  simp [extractS3Details, hparse, h1, h2, h3, h4, h5, h6, asArray, asObject, asString]

/-- Every result of `extractS3Details` is either an error with two empty
strings, or the strings at the first record's path of a decoded payload. -/
lemma extract_cases (messageBody : String) :
    (∃ err, extractS3Details messageBody = ("", "", some err)) ∨
    (∃ event bucketName objectKey, jsonUnmarshal messageBody = .ok event ∧
      HasNotification event bucketName objectKey ∧
      extractS3Details messageBody = (bucketName, objectKey, none)) := by
  unfold extractS3Details
  split
  · exact Or.inl ⟨_, rfl⟩
  · rename_i event hparse
    split
    · exact Or.inl ⟨_, rfl⟩
    · exact Or.inl ⟨_, rfl⟩
    · rename_i first rest hrecords
      split
      · exact Or.inl ⟨_, rfl⟩
      · rename_i record hrecord
        split
        · exact Or.inl ⟨_, rfl⟩
        · rename_i s3Info hs3
          split
          · exact Or.inl ⟨_, rfl⟩
          · rename_i bucketInfo hbucket
            split
            · exact Or.inl ⟨_, rfl⟩
            · rename_i bucketName hname
              split
              · exact Or.inl ⟨_, rfl⟩
              · rename_i objectInfo hobject
                split
                · exact Or.inl ⟨_, rfl⟩
                · rename_i objectKey hkey
                  refine Or.inr ⟨event, bucketName, objectKey, hparse, ?_, rfl⟩
                  have hfirst := asObject_eq_some hrecord
                  simp only [Option.some.injEq] at hfirst
                  subst hfirst
                  exact ⟨record, rest, s3Info, bucketInfo, objectInfo,
                    asArray_eq_some hrecords, asObject_eq_some hs3, asObject_eq_some hbucket,
                    asString_eq_some hname, asObject_eq_some hobject, asString_eq_some hkey⟩

/-- C2: a payload that decodes to an object whose `Records` is a non-empty
array whose first element has a string at `s3.bucket.name` and a string at
`s3.object.key` is decoded without error to exactly those two strings,
whatever records follow the first. -/
theorem extractS3Details_first_record (messageBody : String) (event record : JMap)
    (others : List JSON) (s3Info bucketInfo objectInfo : JMap) (bucketName objectKey : String)
    (hparse : jsonUnmarshal messageBody = .ok event)
    (hrecords : mapIndex event "Records" = some (JSON.array (JSON.object record :: others)))
    (hs3 : mapIndex record "s3" = some (JSON.object s3Info))
    (hbucket : mapIndex s3Info "bucket" = some (JSON.object bucketInfo))
    (hname : mapIndex bucketInfo "name" = some (JSON.string bucketName))
    (hobject : mapIndex s3Info "object" = some (JSON.object objectInfo))
    (hkey : mapIndex objectInfo "key" = some (JSON.string objectKey)) :
    extractS3Details messageBody = (bucketName, objectKey, none) :=
  extract_of_shape hparse
    ⟨record, others, s3Info, bucketInfo, objectInfo, hrecords, hs3, hbucket, hname, hobject, hkey⟩

/-- C2, on the scenario payload and on a payload with a second record. -/
theorem extractS3Details_first_record_witness :
    extractS3Details scenarioPayload = ("b1", "k1", none) ∧
    extractS3Details twoRecordPayload = ("b1", "k1", none) :=
  ⟨extractS3Details_first_record scenarioPayload
      [("Records", JSON.array [JSON.object [("s3", JSON.object
        [("bucket", JSON.object [("name", JSON.string "b1")]),
         ("object", JSON.object [("key", JSON.string "k1")])])]])]
      [("s3", JSON.object
        [("bucket", JSON.object [("name", JSON.string "b1")]),
         ("object", JSON.object [("key", JSON.string "k1")])])]
      []
      [("bucket", JSON.object [("name", JSON.string "b1")]),
       ("object", JSON.object [("key", JSON.string "k1")])]
      [("name", JSON.string "b1")] [("key", JSON.string "k1")] "b1" "k1"
      rfl rfl rfl rfl rfl rfl rfl,
   extractS3Details_first_record twoRecordPayload
      [("Records", JSON.array [JSON.object [("s3", JSON.object
        [("bucket", JSON.object [("name", JSON.string "b1")]),
         ("object", JSON.object [("key", JSON.string "k1")])])],
        JSON.object [("s3", JSON.object
        [("bucket", JSON.object [("name", JSON.string "b2")]),
         ("object", JSON.object [("key", JSON.string "k2")])])]])]
      [("s3", JSON.object
        [("bucket", JSON.object [("name", JSON.string "b1")]),
         ("object", JSON.object [("key", JSON.string "k1")])])]
      [JSON.object [("s3", JSON.object
        [("bucket", JSON.object [("name", JSON.string "b2")]),
         ("object", JSON.object [("key", JSON.string "k2")])])]]
      [("bucket", JSON.object [("name", JSON.string "b1")]),
       ("object", JSON.object [("key", JSON.string "k1")])]
      [("name", JSON.string "b1")] [("key", JSON.string "k1")] "b1" "k1"
      rfl rfl rfl rfl rfl rfl rfl⟩

/-- C3: a payload that decodes to an object without a `Records` array, or with
an empty one, fails with the error "no records found in S3 event", and the
bucket name and object key returned with it are empty. -/
theorem extractS3Details_no_records (messageBody : String) (event : JMap)
    (hparse : jsonUnmarshal messageBody = .ok event)
    (hrecords : asArray (mapIndex event "Records") = none ∨
      asArray (mapIndex event "Records") = some []) :
    extractS3Details messageBody = ("", "", some ("no records found" ++ " in S3 event")) := by
  rcases hrecords with h | h <;> simp [extractS3Details, hparse, h]

/-- C3, on the payloads `{"Records":[]}` and `{}`. -/
theorem extractS3Details_no_records_witness :
    extractS3Details emptyRecordsPayload = ("", "", some "no records found in S3 event") ∧
    extractS3Details emptyObjectPayload = ("", "", some "no records found in S3 event") :=
  ⟨extractS3Details_no_records emptyRecordsPayload [("Records", JSON.array [])] rfl (Or.inr rfl),
   extractS3Details_no_records emptyObjectPayload [] rfl (Or.inl rfl)⟩

/-- C4, refuted: a notification whose bucket name and object key are the empty
string is decoded without error, to two empty strings. -/
theorem extractS3Details_empty_fields :
    extractS3Details emptyNamesPayload = ("", "", none) := by
  decide

/-- C4, amended: when `extractS3Details` returns without error, the bucket name
and object key it returns are the strings at `s3.bucket.name` and
`s3.object.key` of the first record of the decoded payload, whether or not they
are empty. -/
theorem extractS3Details_returns_path (messageBody bucketName objectKey : String)
    (hok : extractS3Details messageBody = (bucketName, objectKey, none)) :
    ∃ event, jsonUnmarshal messageBody = .ok event ∧
      HasNotification event bucketName objectKey := by
  rcases extract_cases messageBody with ⟨err, herr⟩ | ⟨event, b, k, hparse, hshape, hres⟩
  · rw [herr] at hok
    simp at hok
  · rw [hres] at hok
    simp only [Prod.mk.injEq, and_true] at hok
    obtain ⟨rfl, rfl⟩ := hok
    exact ⟨event, hparse, hshape⟩

/-- C4 amended, on the payload with empty names. -/
theorem extractS3Details_returns_path_witness :
    ∃ event, jsonUnmarshal emptyNamesPayload = .ok event ∧ HasNotification event "" "" :=
  extractS3Details_returns_path emptyNamesPayload "" "" (by decide)

/-- C5: `extractS3Details` returns without error exactly on the payloads that
decode to an object of the notification shape; on every payload it returns
either no error, or an error together with an empty bucket name and an empty
object key. -/
theorem extractS3Details_succeeds_iff (messageBody : String) :
    ((extractS3Details messageBody).2.2 = none ↔
      ∃ event bucketName objectKey, jsonUnmarshal messageBody = .ok event ∧
        HasNotification event bucketName objectKey) ∧
    ((extractS3Details messageBody).2.2 = none ∨
      ((extractS3Details messageBody).1 = "" ∧ (extractS3Details messageBody).2.1 = "")) := by
  rcases extract_cases messageBody with ⟨err, herr⟩ | ⟨event, b, k, hparse, hshape, hres⟩
  · refine ⟨⟨fun h => ?_, fun h => ?_⟩, Or.inr ?_⟩
    · rw [herr] at h
      simp at h
    · obtain ⟨event, b, k, hparse, hshape⟩ := h
      rw [extract_of_shape hparse hshape] at herr
      simp at herr
    · rw [herr]
      exact ⟨rfl, rfl⟩
  · refine ⟨⟨fun _ => ⟨event, b, k, hparse, hshape⟩, fun _ => ?_⟩, Or.inl ?_⟩ <;> rw [hres]

/-! ## Properties of the scanner -/

lemma trySplit_of_mem (s : Scanner) (herr : s.err = none) (hmem : LF ∈ s.pending) :
    s.trySplit =
      (some (dropCR (s.pending.take (s.pending.indexOf LF))),
       { s with start := s.start + (s.pending.indexOf LF + 1),
                pending := s.pending.drop (s.pending.indexOf LF + 1),
                tok := dropCR (s.pending.take (s.pending.indexOf LF)) }) := by
  have hne : s.pending ≠ [] := List.ne_nil_of_mem hmem
  have hlt : s.pending.indexOf LF < s.pending.length := List.indexOf_lt_length.2 hmem
  simp [Scanner.trySplit, ScanLines, hne, herr, hlt]

lemma trySplit_of_not_mem (s : Scanner) (herr : s.err = none) (hmem : LF ∉ s.pending) :
    ∃ t, s.trySplit = (none, { s with tok := t }) := by
  have hlt : ¬ s.pending.indexOf LF < s.pending.length := by
    rw [List.indexOf_lt_length]; exact hmem
  by_cases hp : s.pending = []
  · refine ⟨s.tok, ?_⟩
    cases s
    simp_all [Scanner.trySplit]
  · exact ⟨[], by simp [Scanner.trySplit, ScanLines, herr, hp, hlt]⟩

lemma trySplit_eof (s : Scanner) (herr : s.err = some ScanError.EOF) (hmem : LF ∉ s.pending) :
    s.trySplit =
      if s.pending = [] then (none, { s with tok := [] })
      else (some (dropCR s.pending),
            { s with start := s.start + s.pending.length, pending := [],
                     tok := dropCR s.pending }) := by
  have hlt : ¬ s.pending.indexOf LF < s.pending.length := by
    rw [List.indexOf_lt_length]; exact hmem
  by_cases hp : s.pending = []
  · simp [Scanner.trySplit, ScanLines, herr, hp]
  · simp [Scanner.trySplit, ScanLines, herr, hp, hlt]

lemma shift_spec (s : Scanner) (h : s.Ready) :
    s.shift.Ready ∧ s.shift.pending = s.pending ∧ s.shift.rest = s.rest ∧
    s.shift.maxTokenSize = s.maxTokenSize ∧ s.shift.bufLen = s.bufLen ∧
    (s.shift.isFull = true → s.shift.start = 0) := by
  obtain ⟨herr, hfits, hbound, hpos, hsmall⟩ := h
  unfold Scanner.shift
  split
  · refine ⟨⟨herr, ?_, hbound, hpos, hsmall⟩, rfl, rfl, rfl, rfl, fun _ => rfl⟩
    simp only
    omega
  · rename_i hns
    refine ⟨⟨herr, hfits, hbound, hpos, hsmall⟩, rfl, rfl, rfl, rfl, fun hfull => ?_⟩
    simp only [Scanner.isFull, decide_eq_true_eq] at hfull
    by_contra h0
    exact hns ⟨Nat.pos_of_ne_zero h0, Or.inl hfull⟩

lemma grow_spec (s : Scanner) (h : s.Ready) (hstart : s.start = 0)
    (hfull : s.isFull = true) (hlim : s.bufLen < s.maxTokenSize) :
    s.grow.Ready ∧ s.grow.pending = s.pending ∧ s.grow.rest = s.rest ∧
    s.grow.maxTokenSize = s.maxTokenSize ∧
    s.grow.start + s.grow.pending.length < s.grow.bufLen := by
  obtain ⟨herr, hfits, hbound, hpos, hsmall⟩ := h
  simp only [Scanner.isFull, decide_eq_true_eq] at hfull
  have hb : s.bufLen <
      min (if s.bufLen * 2 = 0 then startBufSize else s.bufLen * 2) s.maxTokenSize := by
    unfold startBufSize
    split <;> omega
  refine ⟨⟨herr, ?_, ?_, hpos, hsmall⟩, rfl, rfl, rfl, ?_⟩
  · simp only [Scanner.grow]
    omega
  · simp only [Scanner.grow]
    exact Nat.min_le_right _ _
  · simp only [Scanner.grow]
    omega

lemma read_spec (s : Scanner) (h : s.Ready) (hroom : s.start + s.pending.length < s.bufLen) :
    s.read.maxTokenSize = s.maxTokenSize ∧ s.read.unread = s.unread ∧
    (s.rest = [] → s.read.err = some ScanError.EOF ∧ s.read.pending = s.pending) ∧
    (s.rest ≠ [] → s.read.Ready ∧ s.read.rest.length < s.rest.length) := by
  obtain ⟨herr, hfits, hbound, hpos, hsmall⟩ := h
  have hr : ¬ (s.bufLen - (s.start + s.pending.length) = 0) := by omega
  by_cases hrest : s.rest = []
  · simp [Scanner.read, hrest, Scanner.unread]
  · have hlen : 0 < s.rest.length := List.length_pos.2 hrest
    simp only [Scanner.read, hrest, hr, if_false, Scanner.unread, List.append_assoc,
      List.take_append_drop, true_and, false_implies, ne_eq, not_false_eq_true, true_implies]
    refine ⟨⟨herr, ?_, hbound, hpos, hsmall⟩, ?_⟩
    · simp only [List.length_append, List.length_take]
      omega
    · simp only [List.length_drop]
      omega

/-- Reading from a scanner that holds no newline and is not at its limit:
either the input has ended, or the buffer gains bytes and the scanner is ready
again, with the same unread input and less left in the reader. -/
lemma read_step (s : Scanner) (h : s.Ready)
    (hlim : s.shift.isFull = true → ¬ (s.maxTokenSize ≤ s.shift.bufLen)) :
    (if s.shift.isFull then s.shift.grow.read else s.shift.read).maxTokenSize
      = s.maxTokenSize ∧
    (if s.shift.isFull then s.shift.grow.read else s.shift.read).unread = s.unread ∧
    (s.rest = [] →
      (if s.shift.isFull then s.shift.grow.read else s.shift.read).err = some ScanError.EOF ∧
      (if s.shift.isFull then s.shift.grow.read else s.shift.read).pending = s.pending ∧
      s.pending.length < s.maxTokenSize) ∧
    (s.rest ≠ [] →
      (if s.shift.isFull then s.shift.grow.read else s.shift.read).Ready ∧
      (if s.shift.isFull then s.shift.grow.read else s.shift.read).rest.length
        < s.rest.length) := by
  obtain ⟨hready, hpend, hrest, hmax, hbuf, hzero⟩ := shift_spec s h
  have hun : s.shift.unread = s.unread := by simp [Scanner.unread, hpend, hrest]
  by_cases hfull : s.shift.isFull = true
  · have hlt : s.shift.bufLen < s.shift.maxTokenSize := by
      have := hlim hfull
      omega
    obtain ⟨gready, gpend, grest, gmax, groom⟩ := grow_spec s.shift hready (hzero hfull) hfull hlt
    obtain ⟨rmax, run, reof, rmore⟩ := read_spec s.shift.grow gready groom
    have hfl : s.shift.start + s.shift.pending.length = s.shift.bufLen := by
      simpa [Scanner.isFull] using hfull
    simp only [hfull, if_true]
    refine ⟨by rw [rmax, gmax, hmax], ?_, fun hr => ?_, fun hr => ?_⟩
    · rw [run, Scanner.unread, gpend, grest, ← hun, Scanner.unread]
    · obtain ⟨e1, e2⟩ := reof (by rw [grest, hrest]; exact hr)
      refine ⟨e1, by rw [e2, gpend, hpend], ?_⟩
      rw [hpend] at hfl
      omega
    · obtain ⟨r1, r2⟩ := rmore (by rw [grest, hrest]; exact hr)
      refine ⟨r1, ?_⟩
      rw [grest, hrest] at r2
      exact r2
  · have hroom : s.shift.start + s.shift.pending.length < s.shift.bufLen := by
      have hne : ¬ (s.shift.start + s.shift.pending.length = s.shift.bufLen) := by
        simpa [Scanner.isFull] using hfull
      have := hready.fits
      omega
    obtain ⟨rmax, run, reof, rmore⟩ := read_spec s.shift hready hroom
    simp only [hfull, Bool.false_eq_true, if_false]
    refine ⟨by rw [rmax, hmax], by rw [run, hun], fun hr => ?_, fun hr => ?_⟩
    · obtain ⟨e1, e2⟩ := reof (by rw [hrest]; exact hr)
      refine ⟨e1, by rw [e2, hpend], ?_⟩
      have := hready.bounded
      rw [hpend] at hroom
      omega
    · obtain ⟨r1, r2⟩ := rmore (by rw [hrest]; exact hr)
      refine ⟨r1, ?_⟩
      rw [hrest] at r2
      exact r2

lemma scanLoop_succ_some (n : Nat) (s s1 : Scanner) (t : List Byte)
    (h : s.trySplit = (some t, s1)) : scanLoop (n + 1) s = (true, s1) := by
  simp only [scanLoop, h]

lemma scanLoop_succ_none (n : Nat) (s s1 : Scanner) (h : s.trySplit = (none, s1)) :
    scanLoop (n + 1) s =
      if s1.err ≠ none then (false, { s1 with start := 0, pending := [] })
      else if s1.shift.isFull then
        if s1.shift.maxTokenSize ≤ s1.shift.bufLen ∨ maxInt / 2 < s1.shift.bufLen then
          (false, { s1.shift with err := some ScanError.ErrTooLong })
        else scanLoop n s1.shift.grow.read
      else scanLoop n s1.shift.read := by
  simp only [scanLoop, h]

/-- The scan at the end of the input. -/
lemma scanLoop_at_eof (n : Nat) (s : Scanner) (herr : s.err = some ScanError.EOF)
    (hmem : LF ∉ s.pending) (hrest : s.rest = []) (hlen : s.pending.length < s.maxTokenSize) :
    Realises s.maxTokenSize (scanLoop (n + 1) s) (scanSpec s.maxTokenSize s.unread) := by
  have hidx : s.pending.indexOf LF = s.pending.length := List.indexOf_eq_length.2 hmem
  by_cases hp : s.pending = []
  · have hsplit := trySplit_eof s herr hmem
    rw [if_pos hp] at hsplit
    rw [scanLoop_succ_none n s _ hsplit]
    simp only [herr, ne_eq, reduceCtorEq, not_false_eq_true, if_true]
    have hun : s.unread = [] := by simp [Scanner.unread, hp, hrest]
    have hM : ¬ s.maxTokenSize ≤ 0 := by omega
    simp [hun, scanSpec, Realises, hM]
  · have hsplit := trySplit_eof s herr hmem
    rw [if_neg hp] at hsplit
    rw [scanLoop_succ_some n s _ _ hsplit]
    have hun : s.unread = s.pending := by simp [Scanner.unread, hrest]
    have hM : ¬ s.maxTokenSize ≤ s.pending.length := by omega
    simp [hun, scanSpec, Realises, hM, hidx, hp, Scanner.unread, hrest, Scanner.Settled,
      herr, Scanner.Err]
    omega

lemma scanSpec_of_mem (s : Scanner) (h : s.Ready) (hmem : LF ∈ s.pending) :
    scanSpec s.maxTokenSize s.unread =
      ScanOutcome.token (dropCR (s.pending.take (s.pending.indexOf LF)))
        (s.pending.drop (s.pending.indexOf LF + 1) ++ s.rest) := by
  have hlt : s.pending.indexOf LF < s.pending.length := List.indexOf_lt_length.2 hmem
  have hidx : s.unread.indexOf LF = s.pending.indexOf LF := by
    unfold Scanner.unread
    exact List.indexOf_append_of_mem hmem
  have h1 : s.unread.indexOf LF < s.unread.length := by
    rw [hidx]; simp only [Scanner.unread, List.length_append]; omega
  have h2 : s.unread.indexOf LF < s.maxTokenSize := by
    rw [hidx]
    have := h.fits
    have := h.bounded
    omega
  unfold scanSpec
  rw [if_pos ⟨h1, h2⟩, hidx]
  unfold Scanner.unread
  rw [List.take_append_of_le_length (Nat.le_of_lt hlt),
    List.drop_append_of_le_length (by omega)]

lemma scanSpec_of_full (s : Scanner) (hmem : LF ∉ s.pending)
    (hlen : s.pending.length = s.maxTokenSize) :
    scanSpec s.maxTokenSize s.unread = ScanOutcome.tooLong := by
  have hidx : s.unread.indexOf LF = s.pending.length + s.rest.indexOf LF := by
    unfold Scanner.unread
    exact List.indexOf_append_of_not_mem hmem
  have h2 : ¬ (s.unread.indexOf LF < s.unread.length ∧
      s.unread.indexOf LF < s.maxTokenSize) := by
    rw [hidx]; omega
  have h3 : s.maxTokenSize ≤ s.unread.length := by
    simp only [Scanner.unread, List.length_append]; omega
  unfold scanSpec
  rw [if_neg h2, if_pos h3]

/-- One turn of the loop of `Scan` on a ready scanner that buffers no newline,
given that shorter inputs are scanned as specified. -/
lemma scanLoop_turn (n : Nat) (s : Scanner) (h : s.Ready) (hmem : LF ∉ s.pending)
    (hn : s.rest.length + 2 ≤ n + 1)
    (ih : ∀ s' : Scanner, s'.Ready → s'.rest.length + 2 ≤ n →
      Realises s'.maxTokenSize (scanLoop n s') (scanSpec s'.maxTokenSize s'.unread)) :
    Realises s.maxTokenSize
      (if s.shift.isFull then
        if s.shift.maxTokenSize ≤ s.shift.bufLen ∨ maxInt / 2 < s.shift.bufLen then
          (false, { s.shift with err := some ScanError.ErrTooLong })
        else scanLoop n s.shift.grow.read
      else scanLoop n s.shift.read)
      (scanSpec s.maxTokenSize s.unread) := by
  obtain ⟨sready, spend, srest, smax, sbuf, szero⟩ := shift_spec s h
  by_cases hlim : s.shift.isFull = true ∧
      (s.shift.maxTokenSize ≤ s.shift.bufLen ∨ maxInt / 2 < s.shift.bufLen)
  · -- the buffer is full and cannot grow
    obtain ⟨hfull, hmaxed⟩ := hlim
    rw [if_pos hfull, if_pos hmaxed]
    have hfl : s.shift.start + s.shift.pending.length = s.shift.bufLen := by
      simpa [Scanner.isFull] using hfull
    have hz := szero hfull
    rw [hz, spend, sbuf] at hfl
    rw [smax, sbuf] at hmaxed
    have hb := h.bounded
    have hs := h.small
    have hlen : s.pending.length = s.maxTokenSize := by omega
    rw [scanSpec_of_full s hmem hlen]
    exact ⟨rfl, rfl⟩
  · -- read more
    have hlim2 : s.shift.isFull = true → ¬ (s.maxTokenSize ≤ s.shift.bufLen) := by
      intro hfull hle
      exact hlim ⟨hfull, Or.inl (by rw [smax]; exact hle)⟩
    have hstep : (if s.shift.isFull then
          if s.shift.maxTokenSize ≤ s.shift.bufLen ∨ maxInt / 2 < s.shift.bufLen then
            (false, { s.shift with err := some ScanError.ErrTooLong })
          else scanLoop n s.shift.grow.read
        else scanLoop n s.shift.read) =
        scanLoop n (if s.shift.isFull then s.shift.grow.read else s.shift.read) := by
      by_cases hfull : s.shift.isFull = true
      · rw [if_pos hfull, if_pos hfull, if_neg (fun hm => hlim ⟨hfull, hm⟩)]
      · rw [if_neg hfull, if_neg hfull]
    rw [hstep]
    obtain ⟨rmax, run, reof, rmore⟩ := read_step s h hlim2
    generalize (if s.shift.isFull then s.shift.grow.read else s.shift.read) = s'
      at rmax run reof rmore
    rw [← rmax, ← run]
    by_cases hrest : s.rest = []
    · obtain ⟨e1, e2, e3⟩ := reof hrest
      obtain ⟨m, rfl⟩ : ∃ m, n = m + 1 := ⟨n - 1, by omega⟩
      have hr : s'.rest = [] := by
        have hu := run
        unfold Scanner.unread at hu
        rw [e2, hrest, List.append_nil] at hu
        exact List.append_right_eq_self.1 hu
      exact scanLoop_at_eof m s' e1 (by rw [e2]; exact hmem) hr (by rw [e2, rmax]; exact e3)
    · obtain ⟨r1, r2⟩ := rmore hrest
      exact ih s' r1 (by omega)

/-- Every call of `Scan` on a ready scanner returns, and what it returns is
determined by the unread input. -/
lemma scanLoop_spec : ∀ (n : Nat) (s : Scanner), s.Ready → s.rest.length + 2 ≤ n →
    Realises s.maxTokenSize (scanLoop n s) (scanSpec s.maxTokenSize s.unread) := by
  intro n
  induction n with
  | zero => intro s _ hn; omega
  | succ n ih =>
    intro s hready hn
    by_cases hmem : LF ∈ s.pending
    · -- a newline is buffered
      rw [scanLoop_succ_some n s _ _ (trySplit_of_mem s hready.noErr hmem),
        scanSpec_of_mem s hready hmem]
      have hlt : s.pending.indexOf LF < s.pending.length := List.indexOf_lt_length.2 hmem
      refine ⟨rfl, rfl, rfl, Or.inl ⟨hready.noErr, ?_, hready.bounded, hready.pos,
        hready.small⟩, rfl, ?_⟩
      · simp only [List.length_drop]
        have := hready.fits
        omega
      · simp [Scanner.Err, hready.noErr]
    · -- no newline is buffered
      obtain ⟨t, hsplit⟩ := trySplit_of_not_mem s hready.noErr hmem
      rw [scanLoop_succ_none n s _ hsplit]
      have hr1 : ({ s with tok := t } : Scanner).Ready :=
        ⟨hready.noErr, hready.fits, hready.bounded, hready.pos, hready.small⟩
      have hne : ¬ (({ s with tok := t } : Scanner).err ≠ none) := by
        simp [hready.noErr]
      rw [if_neg hne]
      exact scanLoop_turn n { s with tok := t } hr1 hmem hn ih

/-- A fresh scanner is ready. -/
lemma newScanner_ready (content : List Byte) : (NewScanner content).Ready :=
  ⟨rfl, by simp [NewScanner], by simp [NewScanner], by simp [NewScanner, MaxScanTokenSize],
    by simp [NewScanner, MaxScanTokenSize, maxInt]⟩

/-- The method `Scan`, between two calls: it returns, and what it returns is
determined by the unread input. -/
lemma scan_spec (s : Scanner) (h : s.Settled) :
    Realises s.maxTokenSize s.Scan (scanSpec s.maxTokenSize s.unread) := by
  rcases h with h | ⟨herr, hp, hrest, hpos⟩
  · exact scanLoop_spec _ s h (Nat.le_refl _)
  · unfold Scanner.Scan
    rw [hrest]
    exact scanLoop_at_eof 1 s herr (by simp [hp]) hrest (by rw [hp]; exact hpos)

lemma mem_take_iff_indexOf (a : Byte) : ∀ (c : List Byte) (m : Nat),
    a ∈ c.take m ↔ (c.indexOf a < c.length ∧ c.indexOf a < m)
  | [], m => by simp
  | b :: t, 0 => by simp
  | b :: t, m + 1 => by
    by_cases hb : b = a
    · simp [hb, List.indexOf_cons_eq]
    · have ha : ¬ a = b := fun h => hb h.symm
      simp [List.indexOf_cons_ne _ hb, mem_take_iff_indexOf a t m, ha]

lemma take_indexOf_eq_takeWhile (a : Byte) : ∀ (c : List Byte),
    c.take (c.indexOf a) = c.takeWhile (fun b => b ≠ a)
  | [] => by simp
  | b :: t => by
    by_cases hb : b = a
    · simp [hb, List.indexOf_cons_eq]
    · simp [List.indexOf_cons_ne _ hb, hb, take_indexOf_eq_takeWhile a t]

lemma takeWhile_ne_of_not_mem (a : Byte) (c : List Byte) (h : a ∉ c) :
    c.takeWhile (fun b => b ≠ a) = c := by
  rw [List.takeWhile_eq_self_iff]
  intro x hx
  simp only [ne_eq, decide_eq_true_eq]
  rintro rfl
  exact h hx

/-- What `fetchAndCheckFile` makes of a downloaded content: not textual when
the content has `MaxScanTokenSize` bytes or more and no newline among the first
`MaxScanTokenSize`; otherwise textual, with the bytes before the first
newline, less one final carriage return, as the first line. -/
lemma checkContent_spec (content : List Byte) :
    checkContent content =
      if MaxScanTokenSize ≤ content.length ∧ LF ∉ content.take MaxScanTokenSize then (false, [])
      else (true, dropCR (beforeNewline content)) := by
  have hspec := scan_spec (NewScanner content) (Or.inl (newScanner_ready content))
  have hun : (NewScanner content).unread = content := by simp [Scanner.unread, NewScanner]
  have hM : (NewScanner content).maxTokenSize = MaxScanTokenSize := rfl
  rw [hun, hM] at hspec
  have hmem := mem_take_iff_indexOf LF content MaxScanTokenSize
  unfold checkContent
  unfold scanSpec at hspec
  by_cases h1 : content.indexOf LF < content.length ∧ content.indexOf LF < MaxScanTokenSize
  · rw [if_pos h1] at hspec
    obtain ⟨r1, r2, _, _, _, r6⟩ := hspec
    have hcond : ¬ (MaxScanTokenSize ≤ content.length ∧ LF ∉ content.take MaxScanTokenSize) :=
      fun h => h.2 (hmem.2 h1)
    rw [if_neg hcond]
    simp only [r1, r6, if_true, Scanner.Text, r2, beforeNewline, take_indexOf_eq_takeWhile]
  · rw [if_neg h1] at hspec
    have hnm : LF ∉ content.take MaxScanTokenSize := fun h => h1 (hmem.1 h)
    by_cases h2 : MaxScanTokenSize ≤ content.length
    · rw [if_pos h2] at hspec
      obtain ⟨r1, r2⟩ := hspec
      rw [if_pos ⟨h2, hnm⟩]
      simp [r1, Scanner.Err, r2]
    · rw [if_neg h2] at hspec
      rw [if_neg (fun h => h2 h.1)]
      have hall : LF ∉ content := by
        intro hin
        exact h1 ⟨List.indexOf_lt_length.2 hin, by
          have := List.indexOf_lt_length.2 hin
          omega⟩
      by_cases h3 : content = []
      · rw [if_pos h3] at hspec
        obtain ⟨r1, r2⟩ := hspec
        subst h3
        simp [r1, Scanner.Err, r2, beforeNewline, dropCR]
      · rw [if_neg h3] at hspec
        obtain ⟨r1, r2, _, _, _, r6⟩ := hspec
        simp only [r1, r6, if_true, Scanner.Text, r2, beforeNewline,
          takeWhile_ne_of_not_mem LF content hall]

/-! ## Properties of the object inspector -/

/-- The run of `fetchAndCheckFile` when the configuration loads and the
download succeeds. -/
lemma fetch_of_download {W : Type} (env : Env W) (w w1 w2 : W) (bucket key : String)
    (content : List Byte)
    (hcfg : env.LoadDefaultConfig w "us-east-1" = (none, w1))
    (hdl : env.Download w1 bucket key = (.ok content, w2)) :
    fetchAndCheckFile env w bucket key =
      { trace := [Event.LoadDefaultConfig "us-east-1", Event.Download bucket key],
        world := w2,
        result := some ((checkContent content).1, (checkContent content).2, none) } := by
  simp only [fetchAndCheckFile, hcfg, hdl]

/-- On a first line too long for the scanner, the first call of `Scan` returns
false with the error `ErrTooLong`. -/
lemma first_scan_long (content : List Byte)
    (hlen : MaxScanTokenSize ≤ content.length) (hmem : LF ∉ content.take MaxScanTokenSize) :
    (NewScanner content).Scan.1 = false ∧
    (NewScanner content).Scan.2.err = some ScanError.ErrTooLong := by
  have hspec := scan_spec (NewScanner content) (Or.inl (newScanner_ready content))
  have hun : (NewScanner content).unread = content := by simp [Scanner.unread, NewScanner]
  have hM : (NewScanner content).maxTokenSize = MaxScanTokenSize := rfl
  rw [hun, hM] at hspec
  have h1 : ¬ (content.indexOf LF < content.length ∧ content.indexOf LF < MaxScanTokenSize) :=
    fun h => hmem ((mem_take_iff_indexOf LF content MaxScanTokenSize).2 h)
  unfold scanSpec at hspec
  rw [if_neg h1, if_pos hlen] at hspec
  exact hspec

lemma first_scan_of_long_first_line (content : List Byte)
    (hlen : MaxScanTokenSize ≤ content.length) (hmem : LF ∉ content.take MaxScanTokenSize) :
    (NewScanner content).Scan.2.Err = some ScanError.ErrTooLong := by
  simp [Scanner.Err, (first_scan_long content hlen hmem).2]

/-- A first line too long for the scanner ends the scan of all lines with
`ErrTooLong`. -/
lemma linesErr_of_long_first_line (content : List Byte)
    (hlen : MaxScanTokenSize ≤ content.length) (hmem : LF ∉ content.take MaxScanTokenSize) :
    linesErr content = some ScanError.ErrTooLong := by
  obtain ⟨r1, r2⟩ := first_scan_long content hlen hmem
  simp [linesErr, scanAll, r1, Scanner.Err, r2]

/-- Scanning every line from a scanner between two calls of `Scan` ends with
`ErrTooLong` when some line of the unread input is too long, and without
error otherwise; the calls of `Scan` allowed for are enough. -/
lemma scanAll_spec : ∀ (n : Nat) (s : Scanner), s.Settled → s.unread.length + 1 ≤ n →
    (LongLine s.maxTokenSize s.unread → scanAll n s = some ScanError.ErrTooLong) ∧
    (¬ LongLine s.maxTokenSize s.unread → scanAll n s = none) := by
  intro n
  induction n with
  | zero => intro s _ hn; omega
  | succ n ih =>
    intro s hs hn
    have hpos : 0 < s.maxTokenSize := by
      rcases hs with h | ⟨_, _, _, h⟩
      · exact h.pos
      · exact h
    have hspec := scan_spec s hs
    have hmem := mem_take_iff_indexOf LF s.unread s.maxTokenSize
    unfold scanSpec at hspec
    by_cases h1 : s.unread.indexOf LF < s.unread.length ∧ s.unread.indexOf LF < s.maxTokenSize
    · -- a line is scanned, the others follow
      rw [if_pos h1] at hspec
      obtain ⟨r1, _, r3, r4, r5, _⟩ := hspec
      have hlen : s.Scan.2.unread.length + 1 ≤ n := by
        rw [r3, List.length_drop]
        omega
      obtain ⟨ih1, ih2⟩ := ih s.Scan.2 r4 hlen
      rw [r5, r3] at ih1 ih2
      have hiff : LongLine s.maxTokenSize s.unread ↔
          LongLine s.maxTokenSize (s.unread.drop (s.unread.indexOf LF + 1)) := by
        constructor
        · intro h
          cases h with
          | here _ hlen hnm => exact absurd (hmem.2 h1) hnm
          | later _ _ _ h => exact h
        · exact fun h => LongLine.later _ h1.1 h1.2 h
      simp only [scanAll, r1, if_true]
      exact ⟨fun h => ih1 (hiff.1 h), fun h => ih2 (fun h2 => h (hiff.2 h2))⟩
    · rw [if_neg h1] at hspec
      have hnm : LF ∉ s.unread.take s.maxTokenSize := fun h => h1 (hmem.1 h)
      by_cases h2 : s.maxTokenSize ≤ s.unread.length
      · -- the line is too long
        rw [if_pos h2] at hspec
        obtain ⟨r1, r2⟩ := hspec
        have hres : scanAll (n + 1) s = some ScanError.ErrTooLong := by
          simp [scanAll, r1, Scanner.Err, r2]
        exact ⟨fun _ => hres, fun h => absurd (LongLine.here _ h2 hnm) h⟩
      · -- the last line, if any
        rw [if_neg h2] at hspec
        have hno : ¬ LongLine s.maxTokenSize s.unread := by
          intro h
          cases h with
          | here _ hlen _ => exact h2 hlen
          | later _ hlt hM _ => exact h1 ⟨hlt, hM⟩
        refine ⟨fun h => absurd h hno, fun _ => ?_⟩
        by_cases h3 : s.unread = []
        · rw [if_pos h3] at hspec
          obtain ⟨r1, r2⟩ := hspec
          simp [scanAll, r1, Scanner.Err, r2]
        · rw [if_neg h3] at hspec
          obtain ⟨r1, _, r3, r4, r5, _⟩ := hspec
          have hlen : s.Scan.2.unread.length + 1 ≤ n := by
            rw [r3]
            have : 0 < s.unread.length := List.length_pos.2 h3
            simp only [List.length_nil]
            omega
          obtain ⟨_, ih2⟩ := ih s.Scan.2 r4 hlen
          rw [r5, r3] at ih2
          have hnil : ¬ LongLine s.maxTokenSize [] := by
            intro h
            cases h with
            | here _ hlen _ => simp at hlen; omega
            | later _ hlt _ _ => simp at hlt
          simp only [scanAll, r1, if_true]
          exact ih2 hnil

/-- Scanning a content line by line ends with a scanner error exactly when one
of its lines is too long, and the error is `ErrTooLong`. -/
lemma linesErr_spec (content : List Byte) :
    (LongLine MaxScanTokenSize content → linesErr content = some ScanError.ErrTooLong) ∧
    (¬ LongLine MaxScanTokenSize content → linesErr content = none) := by
  have h := scanAll_spec (content.length + 1) (NewScanner content)
    (Or.inl (newScanner_ready content)) (by simp [Scanner.unread, NewScanner])
  have hun : (NewScanner content).unread = content := by simp [Scanner.unread, NewScanner]
  have hM : (NewScanner content).maxTokenSize = MaxScanTokenSize := rfl
  rw [hun, hM] at h
  exact h

/-- C6, refuted for each reading of "line terminator" (a line feed; a line
feed with an optional carriage return before it; a carriage return as well as
those): a content that scans without error whose `firstLine` is not the text
before its first line terminator. -/
theorem fetchAndCheckFile_first_line_differs :
    (linesErr (utf8 "hello\r\nworld") = none ∧
      (fetchAndCheckFile demoEnv 0 "b1" "crlf").result = some (true, utf8 "hello", none) ∧
      textBefore [[LF]] (utf8 "hello\r\nworld") = utf8 "hello\r") ∧
    (linesErr (utf8 "hello\r") = none ∧
      (fetchAndCheckFile demoEnv 0 "b1" "cr").result = some (true, utf8 "hello", none) ∧
      textBefore [[CR, LF], [LF]] (utf8 "hello\r") = utf8 "hello\r") ∧
    (linesErr (utf8 "a\rb\nc") = none ∧
      (fetchAndCheckFile demoEnv 0 "b1" "mixed").result = some (true, utf8 "a\rb", none) ∧
      textBefore [[CR, LF], [LF], [CR]] (utf8 "a\rb\nc") = utf8 "a") := by
  decide

/-- C6, amended: for a downloaded content that scans line by line without a
scanner error, or just whose first line does (the one call of `Scan` that
`fetchAndCheckFile` makes reports no error), `fetchAndCheckFile` returns
`isTextual = true`, no error, and as `firstLine` the bytes before the first
line feed (the whole content when it has none) less one final carriage
return; for an empty content that is the empty string. -/
theorem fetchAndCheckFile_first_line {W : Type} (env : Env W) (w w1 w2 : W)
    (bucket key : String) (content : List Byte)
    (hcfg : env.LoadDefaultConfig w "us-east-1" = (none, w1))
    (hdl : env.Download w1 bucket key = (.ok content, w2))
    (hclean : linesErr content = none ∨ (NewScanner content).Scan.2.Err = none) :
    (fetchAndCheckFile env w bucket key).result =
      some (true, dropCR (beforeNewline content), none) ∧
    (content = [] → (fetchAndCheckFile env w bucket key).result = some (true, [], none)) := by
  have hcond : ¬ (MaxScanTokenSize ≤ content.length ∧ LF ∉ content.take MaxScanTokenSize) := by
    rintro ⟨h1, h2⟩
    rcases hclean with hclean | hclean
    · rw [linesErr_of_long_first_line content h1 h2] at hclean
      simp at hclean
    · rw [first_scan_of_long_first_line content h1 h2] at hclean
      simp at hclean
  rw [fetch_of_download env w w1 w2 bucket key content hcfg hdl, checkContent_spec,
    if_neg hcond]
  refine ⟨rfl, fun h => ?_⟩
  subst h
  simp [beforeNewline, dropCR]

/-- C6 amended, on the content of the inspection scenario. -/
theorem fetchAndCheckFile_first_line_witness :
    linesErr (utf8 "hello\nworld") = none ∧
    dropCR (beforeNewline (utf8 "hello\nworld")) = utf8 "hello" ∧
    (fetchAndCheckFile demoEnv 0 "b1" "k1").result =
      some (true, dropCR (beforeNewline (utf8 "hello\nworld")), none) :=
  ⟨by decide, by decide,
    (fetchAndCheckFile_first_line demoEnv 0 1 2 "b1" "k1" (utf8 "hello\nworld") rfl rfl
      (Or.inl (by decide))).1⟩

/-- A short first line followed by a line too long for the scanner: the scan
of all lines ends with `ErrTooLong`. -/
lemma linesErr_of_long_second_line (line rest : List Byte) (hline : LF ∉ line)
    (hshort : line.length < MaxScanTokenSize) (hlen : MaxScanTokenSize ≤ rest.length)
    (hmem : LF ∉ rest.take MaxScanTokenSize) :
    linesErr (line ++ LF :: rest) = some ScanError.ErrTooLong := by
  have hspec := scan_spec (NewScanner (line ++ LF :: rest))
    (Or.inl (newScanner_ready (line ++ LF :: rest)))
  have hun : (NewScanner (line ++ LF :: rest)).unread = line ++ LF :: rest := by
    simp [Scanner.unread, NewScanner]
  have hM : (NewScanner (line ++ LF :: rest)).maxTokenSize = MaxScanTokenSize := rfl
  rw [hun, hM] at hspec
  have hidx : (line ++ LF :: rest).indexOf LF = line.length := by
    rw [List.indexOf_append_of_not_mem hline, List.indexOf_cons_self, Nat.add_zero]
  have h1 : (line ++ LF :: rest).indexOf LF < (line ++ LF :: rest).length ∧
      (line ++ LF :: rest).indexOf LF < MaxScanTokenSize := by
    rw [hidx]
    simp only [List.length_append, List.length_cons]
    omega
  unfold scanSpec at hspec
  rw [if_pos h1, hidx] at hspec
  obtain ⟨r1, _, r3, r4, r5, _⟩ := hspec
  have hdrop : (line ++ LF :: rest).drop (line.length + 1) = rest := by
    rw [List.drop_append_eq_append_drop]
    simp
  rw [hdrop] at r3
  have hspec2 := scan_spec _ r4
  rw [r5, r3] at hspec2
  have h2 : ¬ (rest.indexOf LF < rest.length ∧ rest.indexOf LF < MaxScanTokenSize) :=
    fun h => hmem ((mem_take_iff_indexOf LF rest MaxScanTokenSize).2 h)
  unfold scanSpec at hspec2
  rw [if_neg h2, if_pos hlen] at hspec2
  obtain ⟨q1, q2⟩ := hspec2
  have hfuel : (line ++ LF :: rest).length + 1 = (line.length + rest.length) + 1 + 1 := by
    simp only [List.length_append, List.length_cons]
    omega
  unfold linesErr
  rw [hfuel]
  simp [scanAll, r1, q1, Scanner.Err, q2]

/-- A run of the byte `x` holds no line feed. -/
lemma replicate_long (n : Nat) (hn : MaxScanTokenSize ≤ n) :
    MaxScanTokenSize ≤ (List.replicate n (120 : Byte)).length ∧
    LF ∉ (List.replicate n (120 : Byte)).take MaxScanTokenSize := by
  refine ⟨by rw [List.length_replicate]; exact hn, fun h => ?_⟩
  have h2 := List.eq_of_mem_replicate (List.mem_of_mem_take h)
  exact absurd h2 (by decide)

/-- A content whose first line is "a": only that line is looked at. -/
lemma checkContent_short_first_line (rest : List Byte) :
    checkContent ([97] ++ LF :: rest) = (true, [97]) := by
  have hidx : ([97] ++ LF :: rest).indexOf LF = 1 := by
    rw [List.indexOf_append_of_not_mem (by decide), List.indexOf_cons_self]
    rfl
  have hcond : ¬ (MaxScanTokenSize ≤ ([97] ++ LF :: rest).length ∧
      LF ∉ ([97] ++ LF :: rest).take MaxScanTokenSize) := by
    rintro ⟨_, h⟩
    apply h
    rw [mem_take_iff_indexOf LF _ MaxScanTokenSize, hidx]
    refine ⟨?_, by decide⟩
    simp only [List.length_append, List.length_cons, List.length_nil]
    omega
  rw [checkContent_spec, if_neg hcond]
  simp only [beforeNewline, List.cons_append, List.nil_append]
  rw [List.takeWhile_cons_of_pos (by decide), List.takeWhile_cons_of_neg (by decide)]
  rfl

lemma lateLongLine_eq : lateLongLine = [97] ++ LF :: List.replicate 100000 120 := by
  unfold lateLongLine
  rw [show utf8 "a\n" = [97, LF] by decide]
  rfl

/-- C7, refuted: scanning this content line by line ends with the scanner
error `ErrTooLong`, at its second line, and `fetchAndCheckFile` reports it as
textual with first line "a". -/
theorem fetchAndCheckFile_late_long_line :
    linesErr lateLongLine = some ScanError.ErrTooLong ∧
    (fetchAndCheckFile demoEnv 0 "b1" "late").result = some (true, [97], none) := by
  have hrep := replicate_long 100000 (by decide)
  refine ⟨?_, ?_⟩
  · rw [lateLongLine_eq]
    exact linesErr_of_long_second_line [97] (List.replicate 100000 120) (by decide) (by decide)
      hrep.1 hrep.2
  · rw [fetch_of_download demoEnv 0 1 2 "b1" "late" lateLongLine rfl rfl, lateLongLine_eq,
      checkContent_short_first_line]

/-- C7, amended: `fetchAndCheckFile` scans the first line only.  For a
downloaded content it returns `isTextual = false`, `firstLine = ""` and no error
exactly when the first line is too long for the scanner, that is when the
content has `MaxScanTokenSize` bytes or more and no line feed among the first
`MaxScanTokenSize`. -/
theorem fetchAndCheckFile_non_textual_iff {W : Type} (env : Env W) (w w1 w2 : W)
    (bucket key : String) (content : List Byte)
    (hcfg : env.LoadDefaultConfig w "us-east-1" = (none, w1))
    (hdl : env.Download w1 bucket key = (.ok content, w2)) :
    (fetchAndCheckFile env w bucket key).result = some (false, [], none) ↔
      (MaxScanTokenSize ≤ content.length ∧ LF ∉ content.take MaxScanTokenSize) := by
  rw [fetch_of_download env w w1 w2 bucket key content hcfg hdl, checkContent_spec]
  by_cases hcond : MaxScanTokenSize ≤ content.length ∧ LF ∉ content.take MaxScanTokenSize
  · simp [hcond]
  · rw [if_neg hcond]
    simp [hcond]

/-- C7 amended, on a content of one line of `MaxScanTokenSize` bytes. -/
theorem fetchAndCheckFile_non_textual_iff_witness :
    (MaxScanTokenSize ≤ longLine.length ∧ LF ∉ longLine.take MaxScanTokenSize) ∧
    (fetchAndCheckFile demoEnv 0 "b1" "long").result = some (false, [], none) :=
  have hlong : MaxScanTokenSize ≤ longLine.length ∧ LF ∉ longLine.take MaxScanTokenSize :=
    replicate_long MaxScanTokenSize (Nat.le_refl _)
  ⟨hlong,
    (fetchAndCheckFile_non_textual_iff demoEnv 0 1 2 "b1" "long" longLine rfl rfl).2 hlong⟩

/-! ## Properties of the message processor and of the consumption loop -/

/-- Every run of `processS3Event` goes one of the four ways. -/
lemma processS3Event_cases {W : Type} (env : Env W) (w : W) (messageBody : String) :
    ProcessCase env w messageBody (processS3Event env w messageBody) := by
  unfold processS3Event
  split
  · rename_i bucket key err hdecode
    exact ProcessCase.decodeError bucket key err hdecode
  · rename_i bucket key hdecode
    rcases hcfg : env.LoadDefaultConfig w "us-east-1" with ⟨cfgErr, w1⟩
    cases cfgErr with
    | some err =>
      have h := @ProcessCase.configFatal W env w messageBody bucket key err w1 hdecode hcfg
      simpa [fetchAndCheckFile, hcfg] using h
    | none =>
      rcases hdl : env.Download w1 bucket key with ⟨dl, w2⟩
      cases dl with
      | error err =>
        have h := @ProcessCase.fetchError W env w messageBody bucket key err w1 w2 hdecode hcfg hdl
        simpa [fetchAndCheckFile, hcfg, hdl] using h
      | ok content =>
        have h := @ProcessCase.classified W env w messageBody bucket key content w1 w2 hdecode hcfg hdl
        by_cases htext : (checkContent content).1 = true
        · simpa [fetchAndCheckFile, hcfg, hdl, htext, classificationLine, printfBoth] using h
        · simpa [fetchAndCheckFile, hcfg, hdl, htext, classificationLine, printfBoth] using h

lemma deleteCalls_append (a b : List Event) :
    deleteCalls (a ++ b) = deleteCalls a ++ deleteCalls b := by
  simp [deleteCalls, List.filterMap_append]

lemma receiveCalls_append (a b : List Event) :
    receiveCalls (a ++ b) = receiveCalls a ++ receiveCalls b := by
  simp [receiveCalls, List.filterMap_append]

lemma linesOf_append (sink : Sink) (a b : List Event) :
    linesOf sink (a ++ b) = linesOf sink a ++ linesOf sink b := by
  simp [linesOf, List.filterMap_append]

/-- A run of `processS3Event` calls neither receive nor delete. -/
lemma processS3Event_no_queue_call {W : Type} (env : Env W) (w : W) (messageBody : String) :
    deleteCalls (processS3Event env w messageBody).trace = [] ∧
    receiveCalls (processS3Event env w messageBody).trace = [] := by
  have h := processS3Event_cases env w messageBody
  generalize processS3Event env w messageBody = r at h
  cases h <;> simp [deleteCalls, receiveCalls, printfBoth]

/-- The run of the loop body for a message whose processing returns. -/
lemma handleMessage_of_result {W : Type} (env : Env W) (w : W) (message : Message)
    (err : Option String)
    (hret : (processS3Event env w (ToString message.Body)).result = some err) :
    handleMessage env w message =
      { trace := (processS3Event env w (ToString message.Body)).trace ++ errorLog err ++
          printlnBoth (receivedLine message) ++ [Event.DeleteMessage (deleteInputOf message)] ++
          deleteLog message
            (env.DeleteMessage (processS3Event env w (ToString message.Body)).world
              (deleteInputOf message)).1,
        world := (env.DeleteMessage (processS3Event env w (ToString message.Body)).world
                    (deleteInputOf message)).2,
        result := some () } := by
  unfold handleMessage
  simp only [hret]
  rfl

/-- The loop body returns exactly when the processing of the message does. -/
lemma handleMessage_result {W : Type} (env : Env W) (w : W) (message : Message)
    (hret : (handleMessage env w message).result = some ()) :
    ∃ err, (processS3Event env w (ToString message.Body)).result = some err := by
  cases hres : (processS3Event env w (ToString message.Body)).result with
  | some err => exact ⟨err, rfl⟩
  | none => simp [handleMessage, hres] at hret

/-- The loop body makes one delete call, for its message, and no receive call. -/
lemma handleMessage_queue_calls {W : Type} (env : Env W) (w : W) (message : Message)
    (hret : (handleMessage env w message).result = some ()) :
    deleteCalls (handleMessage env w message).trace = [deleteInputOf message] ∧
    receiveCalls (handleMessage env w message).trace = [] := by
  obtain ⟨err, herr⟩ := handleMessage_result env w message hret
  obtain ⟨hd, hr⟩ := processS3Event_no_queue_call env w (ToString message.Body)
  rw [handleMessage_of_result env w message err herr]
  simp only [deleteCalls_append, receiveCalls_append, hd, hr, List.nil_append]
  constructor
  · cases err <;>
      cases (env.DeleteMessage (processS3Event env w (ToString message.Body)).world
        (deleteInputOf message)).1 <;>
      simp [deleteCalls, printfBoth, printlnBoth, errorLog, deleteLog]
  · cases err <;>
      cases (env.DeleteMessage (processS3Event env w (ToString message.Body)).world
        (deleteInputOf message)).1 <;>
      simp [receiveCalls, printfBoth, printlnBoth, errorLog, deleteLog]

/-- Handling a batch makes one delete call per message, in the order of the
batch, and no receive call. -/
lemma handleMessages_queue_calls {W : Type} (env : Env W) :
    ∀ (messages : List Message) (w : W),
      (handleMessages env w messages).result = some () →
      deleteCalls (handleMessages env w messages).trace = messages.map deleteInputOf ∧
      receiveCalls (handleMessages env w messages).trace = []
  | [], w, _ => by simp [handleMessages, deleteCalls, receiveCalls]
  | message :: rest, w, hret => by
    cases hfirst : (handleMessage env w message).result with
    | none => simp [handleMessages, hfirst] at hret
    | some u =>
      have hrest : (handleMessages env (handleMessage env w message).world rest).result
          = some () := by
        simpa [handleMessages, hfirst] using hret
      obtain ⟨hd, hr⟩ := handleMessage_queue_calls env w message hfirst
      obtain ⟨hds, hrs⟩ := handleMessages_queue_calls env rest _ hrest
      simp only [handleMessages, hfirst, deleteCalls_append, receiveCalls_append, hd, hr, hds,
        hrs, List.map_cons, List.singleton_append, List.append_nil, and_self]

/-- Every turn of the loop of `main` starts with the receive call. -/
lemma pollOnce_head {W : Type} (env : Env W) (w : W) :
    ∃ rest, (pollOnce env w).trace = Event.ReceiveMessage receiveInput :: rest := by
  unfold pollOnce
  split
  · exact ⟨_, rfl⟩
  · exact ⟨_, rfl⟩

/-- The loop of `main` goes on with its next turn when a turn returns. -/
lemma pollLoop_succ {W : Type} (env : Env W) (turns : Nat) (w : W)
    (hret : (pollOnce env w).result = some ()) :
    (pollLoop env (turns + 1) w).trace =
      (pollOnce env w).trace ++ (pollLoop env turns (pollOnce env w).world).trace := by
  simp only [pollLoop, hret]

/-- As long as it runs, the loop of `main` starts with a receive call. -/
lemma pollLoop_head {W : Type} (env : Env W) (turns : Nat) (w : W) :
    (pollLoop env (turns + 1) w).trace.head? = some (Event.ReceiveMessage receiveInput) := by
  obtain ⟨rest, hrest⟩ := pollOnce_head env w
  cases hres : (pollOnce env w).result with
  | none => simp [pollLoop, hres, hrest]
  | some u => simp [pollLoop, hres, hrest]

/-- While the configuration loads, the processing of a message returns. -/
lemma processS3Event_returns {W : Type} (env : Env W)
    (hcfg : ∀ w, (env.LoadDefaultConfig w "us-east-1").1 = none) (w : W)
    (messageBody : String) :
    ∃ err, (processS3Event env w messageBody).result = some err := by
  have h := processS3Event_cases env w messageBody
  generalize processS3Event env w messageBody = run at h
  cases h with
  | decodeError bucket key err hdecode => exact ⟨_, rfl⟩
  | configFatal bucket key err w1 hdecode hload =>
    have := hcfg w
    rw [hload] at this
    simp at this
  | fetchError bucket key err w1 w2 hdecode hload hdl => exact ⟨_, rfl⟩
  | classified bucket key content w1 w2 hdecode hload hdl => exact ⟨_, rfl⟩

/-- While the configuration loads, a batch is handled to its end. -/
lemma handleMessages_returns {W : Type} (env : Env W)
    (hcfg : ∀ w, (env.LoadDefaultConfig w "us-east-1").1 = none) :
    ∀ (messages : List Message) (w : W), (handleMessages env w messages).result = some ()
  | [], w => rfl
  | message :: rest, w => by
    obtain ⟨err, herr⟩ := processS3Event_returns env hcfg w (ToString message.Body)
    have hfirst : (handleMessage env w message).result = some () := by
      rw [handleMessage_of_result env w message err herr]
    simp only [handleMessages, hfirst]
    exact handleMessages_returns env hcfg rest _

/-- While the configuration loads, every turn of the loop of `main` returns. -/
lemma pollOnce_returns {W : Type} (env : Env W)
    (hcfg : ∀ w, (env.LoadDefaultConfig w "us-east-1").1 = none) (w : W) :
    (pollOnce env w).result = some () := by
  unfold pollOnce
  split
  · rfl
  · exact handleMessages_returns env hcfg _ _

/-- When the configuration fails to load for a message that decodes, the
process exits (`log.Fatalf`) before any line is logged for the message and
before its delete call. -/
lemma handleMessage_fatal {W : Type} (env : Env W) (w w1 : W) (message : Message)
    (bucket key err : String)
    (hdecode : extractS3Details (ToString message.Body) = (bucket, key, none))
    (hcfg : env.LoadDefaultConfig w "us-east-1" = (some err, w1)) :
    handleMessage env w message =
      { trace := [Event.LoadDefaultConfig "us-east-1",
                  Event.Fatalf (Sprintf "Failed to load configuration: %v" [Arg.text err])],
        world := w1, result := none } := by
  simp [handleMessage, processS3Event, hdecode, fetchAndCheckFile, hcfg]

/-- After a start without error, `main` prints its greeting and runs its
loop. -/
lemma main_of_start {W : Type} (env : Env W) (turns : Nat) (w w1 w2 : W)
    (hcfg : env.LoadDefaultConfig w "us-east-1" = (none, w1))
    (hopen : env.OpenFile w1 "s3_events.log" = (none, w2)) :
    main env turns w =
      { trace := [Event.LoadDefaultConfig "us-east-1", Event.OpenFile "s3_events.log",
                  Event.Stdout "Listening for messages from SQS queue..."] ++
                 (pollLoop env turns w2).trace,
        world := (pollLoop env turns w2).world, result := (pollLoop env turns w2).result } := by
  simp only [main, hcfg, hopen]

/-- The run of a turn whose receive call fails. -/
lemma pollOnce_of_error {W : Type} (env : Env W) (w w1 : W) (err : String)
    (hrecv : env.ReceiveMessage w receiveInput = (.error err, w1)) :
    pollOnce env w = { trace := failedTurn err, world := w1, result := some () } := by
  simp only [pollOnce, hrecv]
  rfl

/-- Receive calls that fail `k` times in a row: the loop of `main` takes `k`
turns of the same form, each ending in the same sleep, and goes on. -/
lemma pollLoop_receive_errors {W : Type} (env : Env W) :
    ∀ (k : Nat) (ws : Nat → W) (errs : Nat → String),
      (∀ i, i < k → env.ReceiveMessage (ws i) receiveInput = (.error (errs i), ws (i + 1))) →
      pollLoop env k (ws 0) =
        { trace := (List.range k).flatMap (fun i => failedTurn (errs i)),
          world := ws k, result := some () }
  | 0, ws, errs, _ => by simp [pollLoop]
  | k + 1, ws, errs, h => by
    have h0 := pollOnce_of_error env (ws 0) (ws 1) (errs 0) (h 0 (Nat.succ_pos k))
    have ih := pollLoop_receive_errors env k (fun i => ws (i + 1)) (fun i => errs (i + 1))
      (fun i hi => h (i + 1) (Nat.succ_lt_succ hi))
    simp only at ih
    simp only [pollLoop, h0, ih, List.range_succ_eq_map, List.flatMap_cons, List.flatMap_map]

/-- C1: in a turn of the loop of `main` whose receive call returns a batch,
and in which the processing of every message returns (with or without an
error), the delete calls are, in the order of the batch, one per message with
that message's receipt handle, whatever the delete calls answer; the receive
call that opened the turn is the only one of the turn, so every message of the
batch is handled before the next receive call, which opens the next turn. -/
theorem pollOnce_deletes_each_message {W : Type} (env : Env W) (w w1 : W)
    (messages : List Message)
    (hrecv : env.ReceiveMessage w receiveInput = (.ok messages, w1))
    (hret : (pollOnce env w).result = some ()) :
    deleteCalls (pollOnce env w).trace = messages.map deleteInputOf ∧
    receiveCalls (pollOnce env w).trace = [receiveInput] ∧
    (pollOnce env w).trace.head? = some (Event.ReceiveMessage receiveInput) ∧
    ∀ turns, (pollLoop env (turns + 1) w).trace =
      (pollOnce env w).trace ++ (pollLoop env turns (pollOnce env w).world).trace := by
  have hrun : pollOnce env w =
      { trace := Event.ReceiveMessage receiveInput :: (handleMessages env w1 messages).trace,
        world := (handleMessages env w1 messages).world,
        result := (handleMessages env w1 messages).result } := by
    simp only [pollOnce, hrecv]
  have hbatch : (handleMessages env w1 messages).result = some () := by
    rw [hrun] at hret
    exact hret
  obtain ⟨hd, hr⟩ := handleMessages_queue_calls env messages w1 hbatch
  refine ⟨?_, ?_, ?_, fun turns => pollLoop_succ env turns w hret⟩
  · rw [hrun]
    simpa [deleteCalls] using hd
  · rw [hrun]
    simpa [receiveCalls] using hr
  · rw [hrun]
    rfl

/-- C1, on a batch of three messages: one processed without error, one that
fails to decode and whose delete call fails, one whose download fails. -/
theorem pollOnce_deletes_each_message_witness :
    demoEnv.ReceiveMessage 1 receiveInput = (.ok demoBatch, 2) ∧
    (pollOnce demoEnv 1).result = some () ∧
    deleteCalls (pollOnce demoEnv 1).trace =
      [{ QueueUrl := queueURL, ReceiptHandle := some "handle-1" },
       { QueueUrl := queueURL, ReceiptHandle := some "handle-2" },
       { QueueUrl := queueURL, ReceiptHandle := some "handle-3" }] :=
  ⟨rfl, by decide,
    (pollOnce_deletes_each_message demoEnv 1 2 demoBatch rfl (by decide)).1⟩

/-- C8: a turn of the loop of `main` whose receive call fails writes the line
"Failed to receive messages" with the error to the file and then to the
console, sleeps 5 seconds, handles no message and calls no delete; the loop
goes on, and its next queue operation is a receive call with the same
parameters (up to 10 messages, 20 s wait, 30 s visibility timeout).  The state
`w` is arbitrary: it does not matter how many receive calls failed before. -/
theorem pollOnce_receive_error {W : Type} (env : Env W) (w w1 : W) (err : String)
    (hrecv : env.ReceiveMessage w receiveInput = (.error err, w1)) :
    pollOnce env w =
      { trace := [Event.ReceiveMessage receiveInput,
                  Event.Printf Sink.file (Sprintf "Failed to receive messages: %v" [Arg.text err]),
                  Event.Printf Sink.console
                    (Sprintf "Failed to receive messages: %v" [Arg.text err]),
                  Event.Sleep 5000000000],
        world := w1, result := some () } ∧
    deleteCalls (pollOnce env w).trace = [] ∧
    (∀ turns, (pollLoop env (turns + 1) w).trace =
      (pollOnce env w).trace ++ (pollLoop env turns w1).trace) ∧
    (∀ turns, (pollLoop env (turns + 1) w1).trace.head? =
      some (Event.ReceiveMessage
        { QueueUrl := queueURL, MaxNumberOfMessages := 10, WaitTimeSeconds := 20,
          VisibilityTimeout := 30 })) := by
  have hrun : pollOnce env w =
      { trace := [Event.ReceiveMessage receiveInput,
                  Event.Printf Sink.file (Sprintf "Failed to receive messages: %v" [Arg.text err]),
                  Event.Printf Sink.console
                    (Sprintf "Failed to receive messages: %v" [Arg.text err]),
                  Event.Sleep 5000000000],
        world := w1, result := some () } := by
    simp only [pollOnce, hrecv]
    rfl
  refine ⟨hrun, ?_, fun turns => ?_, fun turns => pollLoop_head env turns w1⟩
  · rw [hrun]
    rfl
  · have h := pollLoop_succ env turns w (by rw [hrun])
    rw [h]
    congr 2
    rw [hrun]

/-- C8, on a queue whose first receive call times out. -/
theorem pollOnce_receive_error_witness :
    demoEnv.ReceiveMessage 0 receiveInput = (.error "timeout", 1) ∧
    (pollOnce demoEnv 0).trace =
      [Event.ReceiveMessage receiveInput,
       Event.Printf Sink.file (Sprintf "Failed to receive messages: %v" [Arg.text "timeout"]),
       Event.Printf Sink.console (Sprintf "Failed to receive messages: %v" [Arg.text "timeout"]),
       Event.Sleep 5000000000] :=
  ⟨rfl, congrArg Run.trace (pollOnce_receive_error demoEnv 0 1 "timeout" rfl).1⟩

/-- C9, refuted: for a message whose processing fails, the line "Error
processing message" is written to each sink before the line "Received
message". -/
theorem handleMessage_error_before_received :
    linesOf Sink.file (handleMessage demoEnv 0 undecodableMessage).trace =
      [Sprintf "Failed to extract S3 details: %v" [Arg.text "no records found in S3 event"],
       Sprintf "Error processing message: %v" [Arg.text "no records found in S3 event"],
       Sprintf "Received message: %s" [Arg.text emptyRecordsPayload],
       Sprintf "Failed to delete message: %v" [Arg.text "access denied"]] ∧
    linesOf Sink.console (handleMessage demoEnv 0 undecodableMessage).trace =
      [Sprintf "Failed to extract S3 details: %v" [Arg.text "no records found in S3 event"],
       Sprintf "Error processing message: %v" [Arg.text "no records found in S3 event"],
       Sprintf "Received message: %s" [Arg.text emptyRecordsPayload],
       Sprintf "Failed to delete message: %v" [Arg.text "access denied"]] := by
  decide

/-- C9, amended: for a message whose processing returns, the loop body does,
in this order: (1) run `processS3Event` on the body, (2) write the line "Error
processing message" to both sinks if the processing returned an error,
(3) write the line "Received message" with the body to both sinks,
whatever the processing returned, (4) call delete; so in each sink the line
"Error processing message" comes before the line "Received message". -/
theorem handleMessage_order {W : Type} (env : Env W) (w : W) (message : Message)
    (err : Option String)
    (hret : (processS3Event env w (ToString message.Body)).result = some err) :
    (∃ deleteLines,
      (handleMessage env w message).trace =
        (processS3Event env w (ToString message.Body)).trace ++
        errorLog err ++
        [Event.Println Sink.file (receivedLine message),
         Event.Println Sink.console (receivedLine message)] ++
        [Event.DeleteMessage (deleteInputOf message)] ++ deleteLines) ∧
    (∀ sink, ∃ deleteLine,
      linesOf sink (handleMessage env w message).trace =
        linesOf sink (processS3Event env w (ToString message.Body)).trace ++
        (match err with
         | some e => [Sprintf "Error processing message: %v" [Arg.text e]]
         | none => []) ++
        [receivedLine message] ++ [deleteLine]) := by
  rw [handleMessage_of_result env w message err hret]
  refine ⟨⟨_, rfl⟩, fun sink => ?_⟩
  simp only [linesOf_append]
  cases err <;>
    cases (env.DeleteMessage (processS3Event env w (ToString message.Body)).world
      (deleteInputOf message)).1 <;>
    cases sink <;>
    simp [linesOf, printfBoth, printlnBoth, errorLog, deleteLog]

/-- C9 amended, on a message whose body has no records. -/
theorem handleMessage_order_witness :
    (processS3Event demoEnv 0 (ToString undecodableMessage.Body)).result =
      some (some "no records found in S3 event") ∧
    ∃ deleteLines,
      (handleMessage demoEnv 0 undecodableMessage).trace =
        (processS3Event demoEnv 0 (ToString undecodableMessage.Body)).trace ++
        errorLog (some "no records found in S3 event") ++
        [Event.Println Sink.file (receivedLine undecodableMessage),
         Event.Println Sink.console (receivedLine undecodableMessage)] ++
        [Event.DeleteMessage (deleteInputOf undecodableMessage)] ++ deleteLines :=
  ⟨by decide,
    (handleMessage_order demoEnv 0 undecodableMessage (some "no records found in S3 event")
      (by decide)).1⟩

/-- C10, refuted: the body decodes, the download fails, and no classification
or skip line is written: the one line in each sink is "Failed to process
file". -/
theorem processS3Event_fetch_error_lines :
    extractS3Details missingObjectPayload = ("b1", "missing", none) ∧
    linesOf Sink.file (processS3Event demoEnv 0 missingObjectPayload).trace =
      [Sprintf "Failed to process file: %v"
        [Arg.text "failed to download S3 object: NoSuchKey"]] ∧
    linesOf Sink.console (processS3Event demoEnv 0 missingObjectPayload).trace =
      [Sprintf "Failed to process file: %v"
        [Arg.text "failed to download S3 object: NoSuchKey"]] ∧
    (linesOf Sink.file (processS3Event demoEnv 0 missingObjectPayload).trace).filter
      isClassification = [] := by
  decide

lemma isClassification_line (bucket key : String) (inspected : Bool × List Byte) :
    isClassification (classificationLine bucket key inspected) = true ∧
    isDiagnostic (classificationLine bucket key inspected) = false := by
  unfold classificationLine
  split <;> exact ⟨rfl, rfl⟩

/-- C10, amended: a run of `processS3Event` that returns writes exactly one
line to each sink, the same in both, as its last two events.  When it returns
no error, the body was decoded and the object downloaded, and the line is the
classification or skip line of the object; when it returns an error, the
decoding or the download failed, the line is a diagnostic line with that error,
and no classification or skip line is written. -/
theorem processS3Event_one_line {W : Type} (env : Env W) (w : W) (messageBody : String)
    (r : Option String) (hret : (processS3Event env w messageBody).result = some r) :
    ∃ line earlier,
      (processS3Event env w messageBody).trace =
        earlier ++ [Event.Printf Sink.file line, Event.Printf Sink.console line] ∧
      linesOf Sink.file (processS3Event env w messageBody).trace = [line] ∧
      linesOf Sink.console (processS3Event env w messageBody).trace = [line] ∧
      ((r = none ∧ isClassification line = true ∧ isDiagnostic line = false ∧
          ∃ bucket key w1 w2 content,
            extractS3Details messageBody = (bucket, key, none) ∧
            env.LoadDefaultConfig w "us-east-1" = (none, w1) ∧
            env.Download w1 bucket key = (.ok content, w2) ∧
            line = classificationLine bucket key (checkContent content)) ∨
       (∃ e, r = some e ∧ line.args = [Arg.text e] ∧
          isDiagnostic line = true ∧ isClassification line = false ∧
          ((extractS3Details messageBody).2.2 = some e ∨
           ∃ bucket key w1 w2 downloadErr,
            extractS3Details messageBody = (bucket, key, none) ∧
            env.LoadDefaultConfig w "us-east-1" = (none, w1) ∧
            env.Download w1 bucket key = (.error downloadErr, w2) ∧
            e = "failed to download S3 object: " ++ downloadErr))) := by
  have h := processS3Event_cases env w messageBody
  generalize processS3Event env w messageBody = run at h hret
  cases h with
  | decodeError bucket key err hdecode =>
    refine ⟨Sprintf "Failed to extract S3 details: %v" [Arg.text err], [], rfl, rfl, rfl,
      Or.inr ⟨err, ?_, rfl, rfl, rfl, Or.inl (by rw [hdecode])⟩⟩
    simpa using hret.symm
  | configFatal bucket key err w1 hdecode hcfg => simp at hret
  | fetchError bucket key err w1 w2 hdecode hcfg hdl =>
    refine ⟨Sprintf "Failed to process file: %v"
        [Arg.text ("failed to download S3 object: " ++ err)], _, rfl, rfl, rfl,
      Or.inr ⟨"failed to download S3 object: " ++ err, ?_, rfl, rfl, rfl,
        Or.inr ⟨bucket, key, w1, w2, err, hdecode, hcfg, hdl, rfl⟩⟩⟩
    simpa using hret.symm
  | classified bucket key content w1 w2 hdecode hcfg hdl =>
    refine ⟨classificationLine bucket key (checkContent content), _, rfl, rfl, rfl,
      Or.inl ⟨?_, (isClassification_line _ _ _).1, (isClassification_line _ _ _).2,
        bucket, key, w1, w2, content, hdecode, hcfg, hdl, rfl⟩⟩
    simpa using hret.symm

/-- C10 amended, on the notification of the decode scenario. -/
theorem processS3Event_one_line_witness :
    (processS3Event demoEnv 0 scenarioPayload).result = some none ∧
    linesOf Sink.file (processS3Event demoEnv 0 scenarioPayload).trace =
      [Sprintf "First line of textual file: %s" [Arg.bytes (utf8 "hello")]] ∧
    ∃ line earlier,
      (processS3Event demoEnv 0 scenarioPayload).trace =
        earlier ++ [Event.Printf Sink.file line, Event.Printf Sink.console line] ∧
      linesOf Sink.file (processS3Event demoEnv 0 scenarioPayload).trace = [line] ∧
      linesOf Sink.console (processS3Event demoEnv 0 scenarioPayload).trace = [line] :=
  ⟨by decide, by decide,
    match processS3Event_one_line demoEnv 0 scenarioPayload none (by decide) with
    | ⟨line, earlier, h1, h2, h3, _⟩ => ⟨line, earlier, h1, h2, h3⟩⟩

end S3Upload
